import Mathlib

/-! SysMonitor: the parsing, data-model and refresh layer of `src/main.c`.

A shallow embedding of the tokenizer (`tokens_from_line`), the schema mappers
(`update_cpu_index`, `update_cpu_stats`, `update_meminfo`,
`copy_to_network_struct`, `update_network_info`), the three global record
stores, the renderers (`display_cpu_proc`, `display_network_info`) with one
pass of their refresh loops, and the allocate and release functions of the
stores, followed by theorems about them.

Conventions of the embedding.

* A C string is the list of its characters up to the terminating NUL.
* The three global structs are the fields of one `globals` value that is
  passed through every function; each `string_t` field holds the content of
  its allocated buffer.
* Undefined behaviour of the C program (a NULL argument to `strcmp` or
  `strcpy`, a read of an uninitialised `token_list` slot, a write past an
  array or past an allocated buffer) is an explicit `Fault`.
* A stream (`FILE *`) is the list of the characters still to be read.
* Loops whose C form is `while (... != NULL)` take a fuel argument; running
  out of fuel is the distinct outcome `Fault.fuel`. The entry points supply
  the length of the text plus one; every iteration consumes at least one
  character, the `_loop_fuel` lemmas show that the result does not depend on
  the amount of fuel beyond the length of the text, and the `_ne_fuel`
  theorems show that no entry point ever returns `Fault.fuel`.
* Standard output is the list of the characters written; the lines a frame
  puts on the terminal are its line feeds.
* The allocate and release functions act on a separate model of the heap, in
  which the `string_t` fields hold block identifiers rather than contents.
-/

namespace SysMonitor

/-! ## Constants and types -/

/-- The content of a `char *` buffer, up to its terminating NUL. -/
abbrev string_t := List Char

/-- The delimiter handed to every `strtok` call: the space character. -/
def SPACE : Char := Char.ofNat 32

/-- The line feed that ends a line read by `fgets`. -/
def LF : Char := Char.ofNat 10

def MAX_PROCFILE_LINE_LENGTH : Nat := 8192
def MAX_PROCFILE_TOKEN_AMOUNT : Nat := 12
def NUM_CPU_LINES : Nat := 17
def MAX_CPU_DATA_SIZE : Nat := 34
def MAX_MEM_DATA_SIZE : Nat := 42
def MAX_NETWORK_DATA_SIZE : Nat := 42
def MAX_NETWORK_DEVICES : Nat := 8

/-- The ways in which the C program leaves defined behaviour, plus `fuel`. -/
inductive Fault where
  | null_deref
  | uninit_read
  | out_of_bounds
  | buffer_overflow
  | fuel
  deriving DecidableEq, Repr

deriving instance DecidableEq for Except

structure cpu_line where
  name : string_t
  user_mode : string_t
  nice_time : string_t
  system_mode_time : string_t
  idle_time : string_t
  I_O_wait_time : string_t
  IRQ_time : string_t
  soft_IRQ_time : string_t
  steal_time : string_t
  guest_time : string_t
  guest_nice_time : string_t
  deriving DecidableEq, Repr

structure cpu_stats where
  cpu : List cpu_line
  num_context_switches : string_t
  boot_time : string_t
  num_proccesses_created : string_t
  proccesses_running : string_t
  proccesses_blocked : string_t
  deriving DecidableEq, Repr

structure mem_info where
  mem_total : string_t
  mem_free : string_t
  mem_available : string_t
  buffers : string_t
  cached : string_t
  active : string_t
  inactive : string_t
  dirty : string_t
  page_tables : string_t
  percpu : string_t
  hardware_corrupted : string_t
  deriving DecidableEq, Repr

structure network_device where
  face : string_t
  r_bytes : string_t
  r_packets : string_t
  r_errs : string_t
  r_drop : string_t
  r_fifo : string_t
  r_frame : string_t
  r_compressed : string_t
  r_multicast : string_t
  t_bytes : string_t
  t_packets : string_t
  t_errs : string_t
  t_drop : string_t
  t_fifo : string_t
  t_frame : string_t
  t_compressed : string_t
  deriving DecidableEq, Repr

structure network_info where
  devices : List network_device
  num_devices : Nat
  deriving DecidableEq, Repr

/-- The three global record stores of the program. -/
structure globals where
  cpu_stats : cpu_stats
  mem_info : mem_info
  network_info : network_info
  deriving DecidableEq, Repr

/-- The local array `char *token_list[MAX_PROCFILE_TOKEN_AMOUNT]`; a slot that
was never assigned is `none`. -/
abbrev token_array := List (Option string_t)

/-- The array as declared at the top of each loop iteration: every slot
uninitialised. -/
def fresh_token_list : token_array := List.replicate MAX_PROCFILE_TOKEN_AMOUNT none

/-! ## Library functions -/

/-- One call of `strtok(_, " ")` on the text at the saved position: skip
leading spaces; at the end of the string return NULL; otherwise return the
run of non-space characters and move the saved position past the space that
ended it. -/
def strtok (str : string_t) : Option string_t × string_t :=
  let s := str.dropWhile (fun c => c == SPACE)
  if s = [] then (none, [])
  else (some (s.takeWhile (fun c => c != SPACE)), (s.dropWhile (fun c => c != SPACE)).tail)

/-- The call `strcpy(dest, src)` where `dest` is a buffer of `cap` bytes: the new
content of `dest`. A NULL source and a source that does not fit are faults. -/
def strcpy (cap : Nat) (src : Option string_t) : Except Fault string_t :=
  match src with
  | none => .error .null_deref
  | some s => if s.length < cap then .ok s else .error .buffer_overflow

/-- The call `strcmp(a, b) == 0` against a literal `b`. -/
def strcmp_eq (a : Option string_t) (b : string_t) : Except Fault Bool :=
  match a with
  | none => .error .null_deref
  | some s => .ok (decide (s = b))

/-- The characters one `fgets` call stores, and what is left of the stream:
at most `n` characters, stopping after the first line feed. -/
def fgets_chars : Nat → string_t → string_t × string_t
  | _, [] => ([], [])
  | n, c :: s =>
    if n = 0 then ([], c :: s)
    else if c = LF then ([c], s)
    else ((c :: (fgets_chars (n - 1) s).1), (fgets_chars (n - 1) s).2)

/-- The call `fgets(buf, size, f)`: NULL at end of file, otherwise the line
stored in `buf` and the rest of the stream. -/
def fgets (size : Nat) (f : string_t) : Option (string_t × string_t) :=
  if f = [] then none else some (fgets_chars (size - 1) f)

/-- Reading `token_list[i]` as a `strcpy` source. -/
def read_token (token_list : token_array) (i : Nat) : Except Fault (Option string_t) :=
  match token_list.get? i with
  | some (some t) => .ok (some t)
  | some none => .error .uninit_read
  | none => .error .out_of_bounds

/-! ## The tokenizer -/

/-- The `while ((token = strtok(NULL, " ")) != NULL)` loop of
`tokens_from_line`. -/
def tokens_from_line_loop :
    Nat → string_t → token_array → Nat → Except Fault (token_array × Nat)
  | 0, _, _, _ => .error .fuel
  | fuel + 1, saved, token_list, index =>
    match strtok saved with
    | (none, _) => .ok (token_list, index)
    | (some token, saved1) =>
      if index < token_list.length then
        tokens_from_line_loop fuel saved1 (token_list.set index (some token)) (index + 1)
      else .error .out_of_bounds

/-- The function `tokens_from_line(token_list, line, &num_tokens)`. The result
`none` is the NULL return (nothing was written); otherwise the returned first
token, the array as left by the function and the value stored in
`num_tokens`. -/
def tokens_from_line (token_list : token_array) (line : Option string_t) :
    Except Fault (Option (string_t × token_array × Nat)) :=
  match line with
  | none => .ok none
  | some l =>
    match strtok l with
    | (none, _) => .error .null_deref
    | (some first_token, saved) =>
      if first_token = "intr".toList then .ok none
      else if 0 < token_list.length then
        match tokens_from_line_loop (saved.length + 1) saved
            (token_list.set 0 (some first_token)) 0 with
        | .error e => .error e
        | .ok (tl, index) => .ok (some (first_token, tl, index + 1))
      else .error .out_of_bounds

/-! ## The CPU mapper -/

/-- The call `strcpy(dest, token_list[i])` into a buffer of `cap` bytes. -/
def strcpy_token (cap : Nat) (token_list : token_array) (i : Nat) : Except Fault string_t := do
  let src ← read_token token_list i
  strcpy cap src

/-- The function `update_cpu_index(cpu_index, first_token, token_list)`: eleven
`strcpy` calls into the fields of `cpu_stats.cpu[cpu_index]`. -/
def update_cpu_index (cpu_index : Nat) (first_token : string_t) (token_list : token_array)
    (g : globals) : Except Fault globals :=
  if cpu_index < g.cpu_stats.cpu.length then do
    let name ← strcpy MAX_CPU_DATA_SIZE (some first_token)
    let user_mode ← strcpy_token MAX_CPU_DATA_SIZE token_list 0
    let nice_time ← strcpy_token MAX_CPU_DATA_SIZE token_list 1
    let system_mode_time ← strcpy_token MAX_CPU_DATA_SIZE token_list 2
    let idle_time ← strcpy_token MAX_CPU_DATA_SIZE token_list 3
    let I_O_wait_time ← strcpy_token MAX_CPU_DATA_SIZE token_list 4
    let IRQ_time ← strcpy_token MAX_CPU_DATA_SIZE token_list 5
    let soft_IRQ_time ← strcpy_token MAX_CPU_DATA_SIZE token_list 6
    let steal_time ← strcpy_token MAX_CPU_DATA_SIZE token_list 7
    let guest_time ← strcpy_token MAX_CPU_DATA_SIZE token_list 8
    let guest_nice_time ← strcpy_token MAX_CPU_DATA_SIZE token_list 9
    pure { g with cpu_stats := { g.cpu_stats with
      cpu := g.cpu_stats.cpu.set cpu_index
        { name := name, user_mode := user_mode, nice_time := nice_time,
          system_mode_time := system_mode_time, idle_time := idle_time,
          I_O_wait_time := I_O_wait_time, IRQ_time := IRQ_time,
          soft_IRQ_time := soft_IRQ_time, steal_time := steal_time,
          guest_time := guest_time, guest_nice_time := guest_nice_time } } }
  else .error .out_of_bounds

/-- The statement `if (strcmp(first_token, key) == 0) update_cpu_index(i, ...)`. -/
def cpu_row_if (key : string_t) (cpu_index : Nat) (first_token : string_t)
    (token_list : token_array) (g : globals) : Except Fault globals :=
  if first_token = key then update_cpu_index cpu_index first_token token_list g else .ok g

/-- The statement `if (strcmp(first_token, key) == 0) strcpy(cpu_stats.F, token_list[0])`
for the scalar field `F` written by `put`. -/
def cpu_scalar_if (key : string_t) (put : string_t → cpu_stats → cpu_stats)
    (first_token : string_t) (token_list : token_array) (g : globals) : Except Fault globals :=
  if first_token = key then do
    let v ← strcpy_token MAX_CPU_DATA_SIZE token_list 0
    pure { g with cpu_stats := put v g.cpu_stats }
  else .ok g

/-- The twenty-two `if (strcmp(first_token, ...) == 0)` statements of the loop
body of `update_cpu_stats`, in source order. -/
def update_cpu_stats_dispatch (first_token : string_t) (token_list : token_array)
    (g : globals) : Except Fault globals := do
  let g ← cpu_row_if "cpu".toList 0 first_token token_list g
  let g ← cpu_row_if "cpu0".toList 1 first_token token_list g
  let g ← cpu_row_if "cpu1".toList 2 first_token token_list g
  let g ← cpu_row_if "cpu2".toList 3 first_token token_list g
  let g ← cpu_row_if "cpu3".toList 4 first_token token_list g
  let g ← cpu_row_if "cpu4".toList 5 first_token token_list g
  let g ← cpu_row_if "cpu5".toList 6 first_token token_list g
  let g ← cpu_row_if "cpu6".toList 7 first_token token_list g
  let g ← cpu_row_if "cpu7".toList 8 first_token token_list g
  let g ← cpu_row_if "cpu8".toList 9 first_token token_list g
  let g ← cpu_row_if "cpu9".toList 10 first_token token_list g
  let g ← cpu_row_if "cpu10".toList 11 first_token token_list g
  let g ← cpu_row_if "cpu11".toList 12 first_token token_list g
  let g ← cpu_row_if "cpu12".toList 13 first_token token_list g
  let g ← cpu_row_if "cpu13".toList 14 first_token token_list g
  let g ← cpu_row_if "cpu14".toList 15 first_token token_list g
  let g ← cpu_row_if "cpu15".toList 16 first_token token_list g
  let g ← cpu_scalar_if "ctxt".toList
    (fun v c => { c with num_context_switches := v }) first_token token_list g
  let g ← cpu_scalar_if "btime".toList
    (fun v c => { c with boot_time := v }) first_token token_list g
  let g ← cpu_scalar_if "processes".toList
    (fun v c => { c with num_proccesses_created := v }) first_token token_list g
  let g ← cpu_scalar_if "procs_running".toList
    (fun v c => { c with proccesses_running := v }) first_token token_list g
  cpu_scalar_if "procs_blocked".toList
    (fun v c => { c with proccesses_blocked := v }) first_token token_list g

/-- The body of the `while` loop of `update_cpu_stats`, run on the line that
`fgets` stored in `proc_line_buffer`: tokenize, `continue` on a NULL key or on
`num_tokens < 1`, otherwise run the `if` statements. -/
def update_cpu_stats_line (proc_line_buffer : string_t) (g : globals) : Except Fault globals :=
  match tokens_from_line fresh_token_list (some proc_line_buffer) with
  | .error e => .error e
  | .ok none => .ok g
  | .ok (some (first_token, token_list, num_tokens)) =>
    if num_tokens < 1 then .ok g
    else update_cpu_stats_dispatch first_token token_list g

/-- The `while (fgets(...) != NULL)` loop of `update_cpu_stats`. -/
def update_cpu_stats_loop : Nat → string_t → globals → Except Fault globals
  | 0, _, _ => .error .fuel
  | fuel + 1, file, g =>
    match fgets MAX_PROCFILE_LINE_LENGTH file with
    | none => .ok g
    | some (proc_line_buffer, file1) =>
      match update_cpu_stats_line proc_line_buffer g with
      | .error e => .error e
      | .ok g1 => update_cpu_stats_loop fuel file1 g1

/-- The function `update_cpu_stats()`, reading the stream `proc_stats_file`. -/
def update_cpu_stats (proc_stats_file : string_t) (g : globals) : Except Fault globals :=
  update_cpu_stats_loop (proc_stats_file.length + 1) proc_stats_file g

/-! ## The memory mapper -/

/-- The eleven fields of `struct mem_info`, as named in a `strcpy` destination. -/
inductive mem_field where
  | mem_total
  | mem_free
  | mem_available
  | buffers
  | cached
  | active
  | inactive
  | dirty
  | page_tables
  | percpu
  | hardware_corrupted
  deriving DecidableEq, Repr

/-- The struct after `v` was copied into the buffer of field `f`. -/
def mem_field_write (f : mem_field) (v : string_t) (m : mem_info) : mem_info :=
  match f with
  | .mem_total => { m with mem_total := v }
  | .mem_free => { m with mem_free := v }
  | .mem_available => { m with mem_available := v }
  | .buffers => { m with buffers := v }
  | .cached => { m with cached := v }
  | .active => { m with active := v }
  | .inactive => { m with inactive := v }
  | .dirty => { m with dirty := v }
  | .page_tables => { m with page_tables := v }
  | .percpu => { m with percpu := v }
  | .hardware_corrupted => { m with hardware_corrupted := v }

/-- The content of the buffer of field `f`. -/
def mem_field_read (f : mem_field) (m : mem_info) : string_t :=
  match f with
  | .mem_total => m.mem_total
  | .mem_free => m.mem_free
  | .mem_available => m.mem_available
  | .buffers => m.buffers
  | .cached => m.cached
  | .active => m.active
  | .inactive => m.inactive
  | .dirty => m.dirty
  | .page_tables => m.page_tables
  | .percpu => m.percpu
  | .hardware_corrupted => m.hardware_corrupted

/-- The statement `strcpy(mem_info.F, token_list[0])` for the field `F`. -/
def mem_field_copy (field : mem_field) (token_list : token_array) (g : globals) :
    Except Fault globals :=
  match strcpy_token MAX_MEM_DATA_SIZE token_list 0 with
  | .error e => .error e
  | .ok v => .ok { g with mem_info := mem_field_write field v g.mem_info }

/-- The statement `if (strcmp(first_token, key) == 0) strcpy(mem_info.F, token_list[0])`
for the field `F`; `first_token` may be NULL. -/
def mem_if (key : string_t) (field : mem_field) (first_token : Option string_t)
    (token_list : token_array) (g : globals) : Except Fault globals :=
  match strcmp_eq first_token key with
  | .error e => .error e
  | .ok true => mem_field_copy field token_list g
  | .ok false => .ok g

/-- The eleven `if (strcmp(first_token, ...) == 0)` statements of the loop body
of `update_meminfo`, in source order. -/
def update_meminfo_dispatch (first_token : Option string_t) (token_list : token_array)
    (g : globals) : Except Fault globals := do
  let g ← mem_if "MemTotal:".toList .mem_total first_token token_list g
  let g ← mem_if "MemFree:".toList .mem_free first_token token_list g
  let g ← mem_if "MemAvailable:".toList .mem_available first_token token_list g
  let g ← mem_if "Buffers:".toList .buffers first_token token_list g
  let g ← mem_if "Cached:".toList .cached first_token token_list g
  let g ← mem_if "Active:".toList .active first_token token_list g
  let g ← mem_if "Inactive:".toList .inactive first_token token_list g
  let g ← mem_if "Dirty:".toList .dirty first_token token_list g
  let g ← mem_if "PageTables:".toList .page_tables first_token token_list g
  let g ← mem_if "Percpu:".toList .percpu first_token token_list g
  mem_if "HardwareCorrupted:".toList .hardware_corrupted first_token token_list g

/-- The body of the `while` loop of `update_meminfo`. The return value of
`tokens_from_line` is used without a NULL check; after a NULL return
`token_list` is still uninitialised. -/
def update_meminfo_line (proc_line_buffer : string_t) (g : globals) : Except Fault globals :=
  match tokens_from_line fresh_token_list (some proc_line_buffer) with
  | .error e => .error e
  | .ok none => update_meminfo_dispatch none fresh_token_list g
  | .ok (some (first_token, token_list, _)) =>
    update_meminfo_dispatch (some first_token) token_list g

/-- The `while (fgets(...) != NULL)` loop of `update_meminfo`. -/
def update_meminfo_loop : Nat → string_t → globals → Except Fault globals
  | 0, _, _ => .error .fuel
  | fuel + 1, file, g =>
    match fgets MAX_PROCFILE_LINE_LENGTH file with
    | none => .ok g
    | some (proc_line_buffer, file1) =>
      match update_meminfo_line proc_line_buffer g with
      | .error e => .error e
      | .ok g1 => update_meminfo_loop fuel file1 g1

/-- The function `update_meminfo()`, reading the stream `mem_info_file`. -/
def update_meminfo (mem_info_file : string_t) (g : globals) : Except Fault globals :=
  update_meminfo_loop (mem_info_file.length + 1) mem_info_file g

/-! ## The network mapper -/

/-- The function `copy_to_network_struct(device_index, line_buffer)`: sixteen
`strcpy(field, strtok(...))` statements, the first `strtok` on the line and
the others continuing from the saved position. -/
def copy_to_network_struct (device_index : Nat) (line_buffer : string_t) (g : globals) :
    Except Fault globals :=
  if device_index < g.network_info.devices.length then do
    let k0 := strtok line_buffer
    let face ← strcpy MAX_NETWORK_DATA_SIZE k0.1
    let k1 := strtok k0.2
    let r_bytes ← strcpy MAX_NETWORK_DATA_SIZE k1.1
    let k2 := strtok k1.2
    let r_packets ← strcpy MAX_NETWORK_DATA_SIZE k2.1
    let k3 := strtok k2.2
    let r_errs ← strcpy MAX_NETWORK_DATA_SIZE k3.1
    let k4 := strtok k3.2
    let r_drop ← strcpy MAX_NETWORK_DATA_SIZE k4.1
    let k5 := strtok k4.2
    let r_fifo ← strcpy MAX_NETWORK_DATA_SIZE k5.1
    let k6 := strtok k5.2
    let r_frame ← strcpy MAX_NETWORK_DATA_SIZE k6.1
    let k7 := strtok k6.2
    let r_compressed ← strcpy MAX_NETWORK_DATA_SIZE k7.1
    let k8 := strtok k7.2
    let r_multicast ← strcpy MAX_NETWORK_DATA_SIZE k8.1
    let k9 := strtok k8.2
    let t_bytes ← strcpy MAX_NETWORK_DATA_SIZE k9.1
    let k10 := strtok k9.2
    let t_packets ← strcpy MAX_NETWORK_DATA_SIZE k10.1
    let k11 := strtok k10.2
    let t_errs ← strcpy MAX_NETWORK_DATA_SIZE k11.1
    let k12 := strtok k11.2
    let t_drop ← strcpy MAX_NETWORK_DATA_SIZE k12.1
    let k13 := strtok k12.2
    let t_fifo ← strcpy MAX_NETWORK_DATA_SIZE k13.1
    let k14 := strtok k13.2
    let t_frame ← strcpy MAX_NETWORK_DATA_SIZE k14.1
    let k15 := strtok k14.2
    let t_compressed ← strcpy MAX_NETWORK_DATA_SIZE k15.1
    pure { g with network_info := { g.network_info with
      devices := g.network_info.devices.set device_index
        { face := face, r_bytes := r_bytes, r_packets := r_packets, r_errs := r_errs,
          r_drop := r_drop, r_fifo := r_fifo, r_frame := r_frame,
          r_compressed := r_compressed, r_multicast := r_multicast, t_bytes := t_bytes,
          t_packets := t_packets, t_errs := t_errs, t_drop := t_drop, t_fifo := t_fifo,
          t_frame := t_frame, t_compressed := t_compressed } } }
  else .error .out_of_bounds

/-- The `while (fgets(...) != NULL)` loop of `update_network_info`, with its
locals `line_index` and `device_index`; the result carries the final
`device_index`. -/
def update_network_info_loop :
    Nat → string_t → Nat → Nat → globals → Except Fault (Nat × globals)
  | 0, _, _, _, _ => .error .fuel
  | fuel + 1, file, line_index, device_index, g =>
    match fgets MAX_PROCFILE_LINE_LENGTH file with
    | none => .ok (device_index, g)
    | some (proc_line_buffer, file1) =>
      if line_index < 2 then
        update_network_info_loop fuel file1 (line_index + 1) device_index g
      else
        match copy_to_network_struct device_index proc_line_buffer g with
        | .error e => .error e
        | .ok g1 =>
          if device_index + 1 ≥ MAX_NETWORK_DEVICES then .ok (device_index + 1, g1)
          else update_network_info_loop fuel file1 line_index (device_index + 1) g1

/-- The function `update_network_info()`, reading the stream
`network_activity_file`. -/
def update_network_info (network_activity_file : string_t) (g : globals) :
    Except Fault globals :=
  match update_network_info_loop (network_activity_file.length + 1)
      network_activity_file 0 0 g with
  | .error e => .error e
  | .ok (device_index, g1) =>
    .ok { g1 with network_info := { g1.network_info with num_devices := device_index } }

/-! ## The renderers and the refresh loops -/

/-- The conversion `%<width>s`: the string right-justified in a field of
`width` columns, padded with spaces on the left and never truncated
(`width = 0` is a plain `%s`). -/
def pad_s (width : Nat) (s : string_t) : string_t :=
  List.replicate (width - s.length) SPACE ++ s

/-- What `printf(fmt)` writes for a format without conversions. -/
def printf0 (fmt : String) : string_t := fmt.toList

/-- What `printf(fmt, arg)` writes for a format `pre%<width>spost` with one string
conversion. -/
def printf1 (pre : String) (width : Nat) (arg : string_t) (post : String) : string_t :=
  pre.toList ++ pad_s width arg ++ post.toList

/-- The eleven `printf` calls of `display_cpu_proc` that print the table header. -/
def display_cpu_proc_header : string_t :=
  printf0 "Name | " ++
  printf0 "User mode | " ++
  printf0 "Nice Time | " ++
  printf0 "System Mode time | " ++
  printf0 "Idle Time     | " ++
  printf0 "I/O Wait Time | " ++
  printf0 "IRQ Time | " ++
  printf0 "Soft IRQ Time | " ++
  printf0 "Steal Time | " ++
  printf0 "Guest Time | " ++
  printf0 "Guest Nice Time\n"

/-- The eleven `printf` calls of the `for` body of `display_cpu_proc`, for the
row `cpu_stats.cpu[i]`. -/
def display_cpu_proc_row (r : cpu_line) : string_t :=
  printf1 "" 4 r.name " | " ++
  printf1 " " 8 r.user_mode " | " ++
  printf1 " " 8 r.nice_time " | " ++
  printf1 " " 15 r.system_mode_time " | " ++
  printf1 " " 12 r.idle_time " | " ++
  printf1 " " 12 r.I_O_wait_time " | " ++
  printf1 " " 7 r.IRQ_time " | " ++
  printf1 " " 12 r.soft_IRQ_time " | " ++
  printf1 " " 9 r.steal_time " | " ++
  printf1 " " 9 r.guest_time " | " ++
  printf1 " " 15 r.guest_nice_time ""

/-- The loop `for (i = 0; i < NUM_CPU_LINES; i++)` of `display_cpu_proc`, with
`count` iterations left, appending to what was printed so far. -/
def display_cpu_proc_loop (cpu : List cpu_line) : Nat → Nat → string_t → Except Fault string_t
  | 0, _, out => .ok out
  | count + 1, i, out =>
    match cpu.get? i with
    | none => .error .out_of_bounds
    | some r => display_cpu_proc_loop cpu count (i + 1) (out ++ display_cpu_proc_row r)

/-- The five `printf` calls of `display_cpu_proc` that print the scalars. -/
def display_cpu_proc_scalars (g : globals) : string_t :=
  printf1 "Context Switches: " 0 g.cpu_stats.num_context_switches "" ++
  printf1 "Boot Time: " 0 g.cpu_stats.boot_time "" ++
  printf1 "Total processes Created: " 0 g.cpu_stats.num_proccesses_created "" ++
  printf1 "Processes Running: " 0 g.cpu_stats.proccesses_running "" ++
  printf1 "Processes Blocked: " 0 g.cpu_stats.proccesses_blocked "\n\n"

/-- The function `display_cpu_proc()`: everything it writes to standard output. -/
def display_cpu_proc (g : globals) : Except Fault string_t :=
  match display_cpu_proc_loop g.cpu_stats.cpu NUM_CPU_LINES 0 display_cpu_proc_header with
  | .error e => .error e
  | .ok out => .ok (out ++ display_cpu_proc_scalars g)

/-- The twenty-one `printf` calls of `display_network_info` that print the
table header. -/
def display_network_info_header : string_t :=
  printf0 "-------------------------------------------------------------------" ++
  printf0 "-------------------------------------------------------------------\n" ++
  printf0 "Face         | " ++
  printf0 "R Bytes      | " ++
  printf0 "R Packets    | " ++
  printf0 "R errs       | " ++
  printf0 "R drop       | " ++
  printf0 "R fifo       | " ++
  printf0 "R frame      | " ++
  printf0 "R compressed | " ++
  printf0 "R multicast  |" ++
  printf0 "\n             " ++
  printf0 "| T Bytes      | " ++
  printf0 "T Packets    | " ++
  printf0 "T errs       | " ++
  printf0 "T drop       | " ++
  printf0 "T fifo       | " ++
  printf0 "T frame      | " ++
  printf0 "T compressed | \n" ++
  printf0 "-------------------------------------------------------------------" ++
  printf0 "-------------------------------------------------------------------\n"

/-- The nineteen `printf` calls of the `for` body of `display_network_info`, for
the row `network_info.devices[i]`. -/
def display_network_info_row (d : network_device) : string_t :=
  printf1 "" 12 d.face " |" ++
  printf1 "" 13 d.r_bytes " |" ++
  printf1 "" 13 d.r_packets " |" ++
  printf1 "" 13 d.r_errs " |" ++
  printf1 "" 13 d.r_drop " |" ++
  printf1 "" 13 d.r_fifo " |" ++
  printf1 "" 13 d.r_frame " |" ++
  printf1 "" 13 d.r_compressed " |" ++
  printf1 "" 13 d.r_multicast " |" ++
  printf0 "\n             |" ++
  printf1 "" 13 d.t_bytes " |" ++
  printf1 "" 13 d.t_packets " |" ++
  printf1 "" 13 d.t_errs " |" ++
  printf1 "" 13 d.t_drop " |" ++
  printf1 "" 13 d.t_fifo " |" ++
  printf1 "" 13 d.t_frame " |" ++
  printf1 "" 13 d.t_compressed " |\n" ++
  printf0 "-------------------------------------------------------------------" ++
  printf0 "-------------------------------------------------------------------\n\n"

/-- The loop `for (i = 0; i < network_info.num_devices; i++)` of
`display_network_info`, with `count` iterations left. -/
def display_network_info_loop (devices : List network_device) :
    Nat → Nat → string_t → Except Fault string_t
  | 0, _, out => .ok out
  | count + 1, i, out =>
    match devices.get? i with
    | none => .error .out_of_bounds
    | some d =>
      display_network_info_loop devices count (i + 1) (out ++ display_network_info_row d)

/-- The function `display_network_info()`: everything it writes to standard
output. -/
def display_network_info (g : globals) : Except Fault string_t :=
  display_network_info_loop g.network_info.devices g.network_info.num_devices 0
    display_network_info_header

/-- The function `cpu_status()` on a store as `alloc_cpu_struct` left it: sample,
then render. The result is the rendered frame and the sampled store. -/
def cpu_status (proc_stats_file : string_t) (g : globals) :
    Except Fault (string_t × globals) :=
  match update_cpu_stats proc_stats_file g with
  | .error e => .error e
  | .ok g1 =>
    match display_cpu_proc g1 with
    | .error e => .error e
    | .ok frame => .ok (frame, g1)

/-- The function `network_status()` on a store as `alloc_network_info_struct`
left it: sample, then render. -/
def network_status (network_activity_file : string_t) (g : globals) :
    Except Fault (string_t × globals) :=
  match update_network_info network_activity_file g with
  | .error e => .error e
  | .ok g1 =>
    match display_network_info g1 with
    | .error e => .error e
    | .ok frame => .ok (frame, g1)

/-- One pass through the body of `while (1)` in `cpu_status_loop`: the frame
printed by `cpu_status()`, the number of times `printf("\033[A")` runs after
the `sleep`, and the store. -/
def cpu_status_loop_cycle (proc_stats_file : string_t) (g : globals) :
    Except Fault (string_t × Nat × globals) :=
  match cpu_status proc_stats_file g with
  | .error e => .error e
  | .ok (frame, g1) => .ok (frame, 25, g1)

/-- One pass through the body of `while (1)` in `network_info_loop`: the frame
printed by `network_status()`, the number of times `printf("\033[A")` runs
after the `sleep`, and the store. -/
def network_info_loop_cycle (network_activity_file : string_t) (g : globals) :
    Except Fault (string_t × Nat × globals) :=
  match network_status network_activity_file g with
  | .error e => .error e
  | .ok (frame, g1) => .ok (frame, 4 * g1.network_info.num_devices + 4, g1)

/-- The number of lines a text puts on the terminal: its line feeds. -/
def lines_printed (out : string_t) : Nat := out.count LF

/-- The sixteen stored fields of a device row, in struct order. -/
def network_device_fields (d : network_device) : List string_t :=
  [d.face, d.r_bytes, d.r_packets, d.r_errs, d.r_drop, d.r_fifo, d.r_frame, d.r_compressed,
   d.r_multicast, d.t_bytes, d.t_packets, d.t_errs, d.t_drop, d.t_fifo, d.t_frame,
   d.t_compressed]

/-! ## The allocator and the record-store lifecycle -/

/-- The heap as far as this program reserves it: the identifier the next
`malloc` hands out and the blocks reserved and not yet released, each with its
size in bytes. -/
structure heap where
  next : Nat
  live : List (Nat × Nat)
  deriving DecidableEq, Repr

/-- The value of a `string_t` field: NULL or the identifier of a block. -/
abbrev block_ptr := Option Nat

/-- The fault of the allocator: `free` of a block that is not reserved (a
double free or a wild pointer). -/
inductive heap_fault where
  | invalid_free
  deriving DecidableEq, Repr

/-- The call `malloc(size)`, assumed to succeed: a fresh block is reserved and
its address returned. -/
def malloc (size : Nat) (h : heap) : block_ptr × heap :=
  (some h.next, { next := h.next + 1, live := (h.next, size) :: h.live })

/-- The call `free(p)` for a non-NULL `p`. -/
def free (p : Nat) (h : heap) : Except heap_fault heap :=
  if h.live.any (fun b => b.1 == p) then
    .ok { h with live := h.live.filter (fun b => b.1 != p) }
  else .error .invalid_free

/-- Consecutive statements `field = (char*)malloc(size * sizeof(char))`, one
for each of `n` fields: the pointers stored, in statement order. Whatever the
fields held before is overwritten. -/
def malloc_fields (size : Nat) : Nat → heap → List block_ptr × heap
  | 0, h => ([], h)
  | n + 1, h =>
    ((malloc size h).1 :: (malloc_fields size n (malloc size h).2).1,
      (malloc_fields size n (malloc size h).2).2)

/-- Consecutive statements `if (field != NULL) free(field)`, one for each
field, in statement order. The fields keep their values. -/
def free_fields : List block_ptr → heap → Except heap_fault heap
  | [], h => .ok h
  | none :: ps, h => free_fields ps h
  | some p :: ps, h =>
    match free p h with
    | .error e => .error e
    | .ok h1 => free_fields ps h1

/-- A `for` loop that runs `malloc_fields size fields` for each of `rows` rows. -/
def malloc_rows (size fields : Nat) : Nat → heap → List (List block_ptr) × heap
  | 0, h => ([], h)
  | rows + 1, h =>
    ((malloc_fields size fields h).1
        :: (malloc_rows size fields rows (malloc_fields size fields h).2).1,
      (malloc_rows size fields rows (malloc_fields size fields h).2).2)

/-- A `for` loop that runs `free_fields` for each row. -/
def free_rows : List (List block_ptr) → heap → Except heap_fault heap
  | [], h => .ok h
  | r :: rs, h =>
    match free_fields r h with
    | .error e => .error e
    | .ok h1 => free_rows rs h1

/-- The pointers held in the global `cpu_stats`: eleven per row of `cpu`, then
the five scalars. -/
structure cpu_stats_ptrs where
  cpu : List (List block_ptr)
  scalars : List block_ptr
  deriving DecidableEq, Repr

/-- The pointers held in the global `network_info`: sixteen per device row. -/
structure network_info_ptrs where
  devices : List (List block_ptr)
  deriving DecidableEq, Repr

/-- The pointers held in the global `mem_info`, in the order the allocate and
release functions name the eleven fields. -/
structure mem_info_ptrs where
  fields : List block_ptr
  deriving DecidableEq, Repr

/-- The global `cpu_stats` at program start: static storage, every pointer NULL. -/
def cpu_stats_null : cpu_stats_ptrs :=
  { cpu := List.replicate NUM_CPU_LINES (List.replicate 11 none),
    scalars := List.replicate 5 none }

/-- The global `mem_info` at program start: every pointer NULL. -/
def mem_info_null : mem_info_ptrs :=
  { fields := List.replicate 11 none }

/-- The global `network_info` at program start: every pointer NULL. -/
def network_info_null : network_info_ptrs :=
  { devices := List.replicate MAX_NETWORK_DEVICES (List.replicate 16 none) }

/-- The function `alloc_cpu_struct()`: for each of the 17 rows eleven `malloc`
calls, then five for the scalars; every pointer field is assigned without a
look at its previous value. -/
def alloc_cpu_struct (_old : cpu_stats_ptrs) (h : heap) : cpu_stats_ptrs × heap :=
  ({ cpu := (malloc_rows MAX_CPU_DATA_SIZE 11 NUM_CPU_LINES h).1,
     scalars := (malloc_fields MAX_CPU_DATA_SIZE 5
        (malloc_rows MAX_CPU_DATA_SIZE 11 NUM_CPU_LINES h).2).1 },
   (malloc_fields MAX_CPU_DATA_SIZE 5 (malloc_rows MAX_CPU_DATA_SIZE 11 NUM_CPU_LINES h).2).2)

/-- The function `free_cpu_struct()`: the guarded `free` of every field of every
row, then of the five scalars. No pointer is reset. -/
def free_cpu_struct (p : cpu_stats_ptrs) (h : heap) : Except heap_fault heap :=
  match free_rows p.cpu h with
  | .error e => .error e
  | .ok h1 => free_fields p.scalars h1

/-- The function `alloc_mem_info_struct()`: eleven `malloc` calls. -/
def alloc_mem_info_struct (_old : mem_info_ptrs) (h : heap) : mem_info_ptrs × heap :=
  ({ fields := (malloc_fields MAX_MEM_DATA_SIZE 11 h).1 },
   (malloc_fields MAX_MEM_DATA_SIZE 11 h).2)

/-- The function `free_mem_info_struct()`: eleven guarded `free` calls. -/
def free_mem_info_struct (p : mem_info_ptrs) (h : heap) : Except heap_fault heap :=
  free_fields p.fields h

/-- The function `alloc_network_info_struct()`: for each of the 8 device rows
sixteen `malloc` calls. -/
def alloc_network_info_struct (_old : network_info_ptrs) (h : heap) :
    network_info_ptrs × heap :=
  ({ devices := (malloc_rows MAX_NETWORK_DATA_SIZE 16 MAX_NETWORK_DEVICES h).1 },
   (malloc_rows MAX_NETWORK_DATA_SIZE 16 MAX_NETWORK_DEVICES h).2)

/-- The function `free_network_info_struct()`: the guarded `free` of every field
of every device row. -/
def free_network_info_struct (p : network_info_ptrs) (h : heap) :
    Except heap_fault heap :=
  free_rows p.devices h

/-- The heap before the program reserved anything. -/
def empty_heap : heap := { next := 0, live := [] }

/-- The bytes reserved on a heap. -/
def reserved_bytes (h : heap) : Nat := (h.live.map (fun b => b.2)).sum

/-- The scenario of calling `alloc_cpu_struct()` twice in a row and then
`free_cpu_struct()` once, from all-NULL pointers: the heap it leaves. -/
def cpu_allocate_twice_release_once (h : heap) : Except heap_fault heap :=
  let a1 := alloc_cpu_struct cpu_stats_null h
  let a2 := alloc_cpu_struct a1.1 a1.2
  free_cpu_struct a2.1 a2.2

/-- The scenario of calling `alloc_mem_info_struct()` twice in a row and then
`free_mem_info_struct()` once, from all-NULL pointers. -/
def mem_allocate_twice_release_once (h : heap) : Except heap_fault heap :=
  let a1 := alloc_mem_info_struct mem_info_null h
  let a2 := alloc_mem_info_struct a1.1 a1.2
  free_mem_info_struct a2.1 a2.2

/-- The scenario of calling `alloc_network_info_struct()` twice in a row and
then `free_network_info_struct()` once, from all-NULL pointers. -/
def network_allocate_twice_release_once (h : heap) : Except heap_fault heap :=
  let a1 := alloc_network_info_struct network_info_null h
  let a2 := alloc_network_info_struct a1.1 a1.2
  free_network_info_struct a2.1 a2.2

/-! ## Specification-side vocabulary -/

/-- The space-delimited fields of a line in the specification's words: the
line cut at every space character, with the empty pieces between consecutive
spaces dropped. -/
def space_fields (line : string_t) : List string_t :=
  (line.splitOnP (fun c => c == SPACE)).filter (fun t => !t.isEmpty)

/-- The keys of the CPU rows, in row order: row `i` of the CPU table belongs to
the `i`-th key. -/
def cpu_row_keys : List string_t :=
  ["cpu".toList, "cpu0".toList, "cpu1".toList, "cpu2".toList, "cpu3".toList, "cpu4".toList,
   "cpu5".toList, "cpu6".toList, "cpu7".toList, "cpu8".toList, "cpu9".toList, "cpu10".toList,
   "cpu11".toList, "cpu12".toList, "cpu13".toList, "cpu14".toList, "cpu15".toList]

/-- The CPU row that holds `key` as its name and the first ten of `tokens` as
its counters, in the column order user, nice, system, idle, iowait, irq,
softirq, steal, guest, guest_nice. -/
def cpu_line_of (key : string_t) (tokens : List string_t) : cpu_line :=
  { name := key, user_mode := tokens.getD 0 [], nice_time := tokens.getD 1 [],
    system_mode_time := tokens.getD 2 [], idle_time := tokens.getD 3 [],
    I_O_wait_time := tokens.getD 4 [], IRQ_time := tokens.getD 5 [],
    soft_IRQ_time := tokens.getD 6 [], steal_time := tokens.getD 7 [],
    guest_time := tokens.getD 8 [], guest_nice_time := tokens.getD 9 [] }

/-- Reading back the ten counter fields of a CPU row, in column order. -/
def cpu_line_counters (r : cpu_line) : List string_t :=
  [r.user_mode, r.nice_time, r.system_mode_time, r.idle_time, r.I_O_wait_time, r.IRQ_time,
   r.soft_IRQ_time, r.steal_time, r.guest_time, r.guest_nice_time]

/-- What one line of the CPU source can write: a row of the table or one of
the five scalars. -/
inductive cpu_target where
  | row (i : Nat)
  | context_switches
  | boot_time
  | processes_created
  | processes_running
  | processes_blocked
  deriving DecidableEq, Repr

/-- The CPU schema as one ordered lookup table from key to target: `cpu` is
row 0, `cpuK` is row `K + 1`, and five keys name the scalars. -/
def cpu_schema : List (string_t × cpu_target) :=
  [("cpu".toList, .row 0), ("cpu0".toList, .row 1), ("cpu1".toList, .row 2),
   ("cpu2".toList, .row 3), ("cpu3".toList, .row 4), ("cpu4".toList, .row 5),
   ("cpu5".toList, .row 6), ("cpu6".toList, .row 7), ("cpu7".toList, .row 8),
   ("cpu8".toList, .row 9), ("cpu9".toList, .row 10), ("cpu10".toList, .row 11),
   ("cpu11".toList, .row 12), ("cpu12".toList, .row 13), ("cpu13".toList, .row 14),
   ("cpu14".toList, .row 15), ("cpu15".toList, .row 16),
   ("ctxt".toList, .context_switches), ("btime".toList, .boot_time),
   ("processes".toList, .processes_created), ("procs_running".toList, .processes_running),
   ("procs_blocked".toList, .processes_blocked)]

/-- The target the table gives for a key, if any. -/
def cpu_schema_lookup (key : string_t) : Option cpu_target :=
  (cpu_schema.find? (fun e => decide (e.1 = key))).map (fun e => e.2)

/-- The number of trailing tokens a target consumes: ten for a row, one for a
scalar. -/
def cpu_target_tokens : cpu_target → Nat
  | .row _ => 10
  | _ => 1

/-- Writing a target from a key and its trailing tokens: a row takes the key
and the first ten tokens, a scalar the first token. -/
def cpu_target_write (t : cpu_target) (key : string_t) (tokens : List string_t)
    (c : cpu_stats) : cpu_stats :=
  match t with
  | .row i => { c with cpu := c.cpu.set i (cpu_line_of key tokens) }
  | .context_switches => { c with num_context_switches := tokens.getD 0 [] }
  | .boot_time => { c with boot_time := tokens.getD 0 [] }
  | .processes_created => { c with num_proccesses_created := tokens.getD 0 [] }
  | .processes_running => { c with proccesses_running := tokens.getD 0 [] }
  | .processes_blocked => { c with proccesses_blocked := tokens.getD 0 [] }

/-- What the `if` statement of a schema entry runs when its key matches. -/
def cpu_target_run (t : cpu_target) (first_token : string_t) (token_list : token_array)
    (g : globals) : Except Fault globals :=
  match t with
  | .row i => update_cpu_index i first_token token_list g
  | .context_switches =>
    cpu_scalar_if first_token (fun v c => { c with num_context_switches := v })
      first_token token_list g
  | .boot_time =>
    cpu_scalar_if first_token (fun v c => { c with boot_time := v }) first_token token_list g
  | .processes_created =>
    cpu_scalar_if first_token (fun v c => { c with num_proccesses_created := v })
      first_token token_list g
  | .processes_running =>
    cpu_scalar_if first_token (fun v c => { c with proccesses_running := v })
      first_token token_list g
  | .processes_blocked =>
    cpu_scalar_if first_token (fun v c => { c with proccesses_blocked := v })
      first_token token_list g

/-- The `if` statement of the loop body that belongs to a schema entry. -/
def cpu_statement (e : string_t × cpu_target) (first_token : string_t)
    (token_list : token_array) (g : globals) : Except Fault globals :=
  match e.2 with
  | .row i => cpu_row_if e.1 i first_token token_list g
  | .context_switches =>
    cpu_scalar_if e.1 (fun v c => { c with num_context_switches := v }) first_token token_list g
  | .boot_time =>
    cpu_scalar_if e.1 (fun v c => { c with boot_time := v }) first_token token_list g
  | .processes_created =>
    cpu_scalar_if e.1 (fun v c => { c with num_proccesses_created := v })
      first_token token_list g
  | .processes_running =>
    cpu_scalar_if e.1 (fun v c => { c with proccesses_running := v }) first_token token_list g
  | .processes_blocked =>
    cpu_scalar_if e.1 (fun v c => { c with proccesses_blocked := v }) first_token token_list g

/-- A row target names a row of the 17-row table. -/
def cpu_target_in_table : cpu_target → Bool
  | .row i => decide (i < NUM_CPU_LINES)
  | _ => true

/-- The device row that holds the first sixteen of `fields`, in struct order:
the interface name, eight receive counters, seven transmit counters. -/
def network_device_of (fields : List string_t) : network_device :=
  { face := fields.getD 0 [],
    r_bytes := fields.getD 1 [],
    r_packets := fields.getD 2 [],
    r_errs := fields.getD 3 [],
    r_drop := fields.getD 4 [],
    r_fifo := fields.getD 5 [],
    r_frame := fields.getD 6 [],
    r_compressed := fields.getD 7 [],
    r_multicast := fields.getD 8 [],
    t_bytes := fields.getD 9 [],
    t_packets := fields.getD 10 [],
    t_errs := fields.getD 11 [],
    t_drop := fields.getD 12 [],
    t_fifo := fields.getD 13 [],
    t_frame := fields.getD 14 [],
    t_compressed := fields.getD 15 [] }

/-- A line the network mapper can store: at least sixteen space-delimited
fields, the first sixteen fitting their buffers. -/
def device_line (l : string_t) : Prop :=
  16 ≤ (space_fields l).length
    ∧ ∀ t ∈ (space_fields l).take 16, t.length < MAX_NETWORK_DATA_SIZE

/-- A line of text as one `fgets` call returns it whole: it ends with its only
line feed and fits the line buffer. -/
def text_line (l : string_t) : Prop :=
  l.getLast? = some LF ∧ LF ∉ l.dropLast ∧ l.length < MAX_PROCFILE_LINE_LENGTH

/-- The memory schema as one ordered lookup table from label to field. -/
def mem_schema : List (string_t × mem_field) :=
  [("MemTotal:".toList, .mem_total),
   ("MemFree:".toList, .mem_free),
   ("MemAvailable:".toList, .mem_available),
   ("Buffers:".toList, .buffers),
   ("Cached:".toList, .cached),
   ("Active:".toList, .active),
   ("Inactive:".toList, .inactive),
   ("Dirty:".toList, .dirty),
   ("PageTables:".toList, .page_tables),
   ("Percpu:".toList, .percpu),
   ("HardwareCorrupted:".toList, .hardware_corrupted)]

/-- The field the table gives for a key, if any. -/
def mem_schema_lookup (key : string_t) : Option mem_field :=
  (mem_schema.find? (fun e => decide (e.1 = key))).map (fun e => e.2)

/-- The key of a line: its first space-delimited field. -/
def line_key (l : string_t) : string_t := (space_fields l).headD []

/-- The value token of a line: its second space-delimited field, the first
token after the key. -/
def line_value (l : string_t) : string_t := (space_fields l).getD 1 []

/-- A line of a memory source that `update_meminfo` processes without fault:
read whole by `fgets`, with a key other than `intr`, at most 12 tokens after
the key, and, when the key is one of the eleven labels, a value token that
fits the field. -/
def mem_source_line (l : string_t) : Prop :=
  text_line l ∧ space_fields l ≠ [] ∧ line_key l ≠ "intr".toList
    ∧ (space_fields l).length ≤ MAX_PROCFILE_TOKEN_AMOUNT + 1
    ∧ (mem_schema_lookup (line_key l) ≠ none →
        2 ≤ (space_fields l).length ∧ (line_value l).length < MAX_MEM_DATA_SIZE)

/-- The content of field `f` after the lines were applied in order to a field
holding `v0`: each line whose key is the label of `f` replaces the content by
its value token. -/
def mem_field_after (f : mem_field) (v0 : string_t) (lines : List string_t) : string_t :=
  lines.foldl (fun v l => if mem_schema_lookup (line_key l) = some f then line_value l else v) v0

instance (l : string_t) : Decidable (text_line l) := by
  unfold text_line; infer_instance

instance (l : string_t) : Decidable (device_line l) := by
  unfold device_line; infer_instance

instance (l : string_t) : Decidable (mem_source_line l) := by
  unfold mem_source_line; infer_instance

/-- The eleven stored fields of a CPU row, in struct order. -/
def cpu_line_fields (r : cpu_line) : List string_t :=
  [r.name, r.user_mode, r.nice_time, r.system_mode_time, r.idle_time, r.I_O_wait_time,
   r.IRQ_time, r.soft_IRQ_time, r.steal_time, r.guest_time, r.guest_nice_time]

/-- The five scalar fields of the CPU table, in struct order. -/
def cpu_scalar_fields (c : cpu_stats) : List string_t :=
  [c.num_context_switches, c.boot_time, c.num_proccesses_created, c.proccesses_running,
   c.proccesses_blocked]

/-- The line feeds held inside the stored fields of the CPU table. -/
def cpu_stats_line_feeds (c : cpu_stats) : Nat :=
  ((c.cpu.map (fun r => ((cpu_line_fields r).map lines_printed).sum)).sum)
    + ((cpu_scalar_fields c).map lines_printed).sum

/-- The text of the kernel stat source of a machine with two cores. -/
def two_core_stat : string_t :=
  ("cpu  4705 356 2200 178453 2127 0 41 0 0 0\n"
    ++ "cpu0 2403 180 1101 89211 1050 0 30 0 0 0\n"
    ++ "cpu1 2302 176 1099 89242 1077 0 11 0 0 0\n"
    ++ "intr 114930 0 9 0 0 0 0 0\n"
    ++ "ctxt 1990473\n"
    ++ "btime 1700000000\n"
    ++ "processes 2915\n"
    ++ "procs_running 1\n"
    ++ "procs_blocked 0\n"
    ++ "softirq 183433 0 49 12 9935 18 0 27 65 0 8\n").toList

/-- The first 8191 characters of an interrupt line with many counters: the key
`intr`, then 4093 counters `0`, each preceded and followed by one space. -/
def long_intr_head : string_t :=
  "intr ".toList ++ (List.replicate 4093 "0 ".toList).flatten

/-- One interrupt line of 8219 characters: the key `intr`, 4107 counters `0`
separated by single spaces, and the line feed. -/
def long_intr_line : string_t :=
  long_intr_head ++ "0 0 0 0 0 0 0 0 0 0 0 0 0 0\n".toList

/-- One line of 8216 characters with first token `intr`, whose tokens from
character 8191 on are `cpu` and ten numbers. -/
def long_intr_line_cpu : string_t :=
  long_intr_head ++ "cpu 1 2 3 4 5 6 7 8 9 10\n".toList

/-- A store in which every buffer holds the empty string: 17 CPU rows, 8
device rows. Used as a concrete starting store. -/
def blank_globals : globals :=
  { cpu_stats :=
      { cpu := List.replicate NUM_CPU_LINES ⟨[], [], [], [], [], [], [], [], [], [], []⟩,
        num_context_switches := [], boot_time := [], num_proccesses_created := [],
        proccesses_running := [], proccesses_blocked := [] },
    mem_info := ⟨[], [], [], [], [], [], [], [], [], [], []⟩,
    network_info :=
      { devices := List.replicate MAX_NETWORK_DEVICES
          ⟨[], [], [], [], [], [], [], [], [], [], [], [], [], [], [], []⟩,
        num_devices := 0 } }

/-- The array after the tokens `ts` were assigned to consecutive slots from
`index` on. -/
def put_tokens : token_array → Nat → List string_t → token_array
  | token_list, _, [] => token_list
  | token_list, index, t :: ts => put_tokens (token_list.set index (some t)) (index + 1) ts

/-! ## Lemmas on `strtok` -/

theorem space_fields_nil : space_fields [] = [] := by
  simp [space_fields, List.splitOnP_nil]

theorem space_fields_space (s : string_t) : space_fields (SPACE :: s) = space_fields s := by
  simp [space_fields, List.splitOnP_cons]

theorem space_fields_dropWhile (s : string_t) :
    space_fields (s.dropWhile (fun c => c == SPACE)) = space_fields s := by
  induction s with
  | nil => rfl
  | cons c s ih =>
    by_cases h : c = SPACE
    · subst h
      simp [List.dropWhile_cons, space_fields_space, ih]
    · simp [List.dropWhile_cons, h]

theorem space_fields_token (c : Char) (s : string_t) (h : c ≠ SPACE) :
    space_fields (c :: s)
      = (c :: s).takeWhile (fun c => c != SPACE)
          :: space_fields ((c :: s).dropWhile (fun c => c != SPACE)).tail := by
  have hsplit := List.takeWhile_append_dropWhile (fun c => c != SPACE) (c :: s)
  have htok : ∀ x ∈ (c :: s).takeWhile (fun c => c != SPACE), ¬ ((fun c => c == SPACE) x) = true := by
    intro x hx
    have := List.mem_takeWhile_imp hx
    simpa using this
  have hne : (c :: s).takeWhile (fun c => c != SPACE) ≠ [] := by
    simp [List.takeWhile_cons, h]
  generalize ht : (c :: s).takeWhile (fun c => c != SPACE) = t at *
  generalize hr : (c :: s).dropWhile (fun c => c != SPACE) = r at *
  cases r with
  | nil =>
    rw [← hsplit]
    simp only [List.append_nil, List.tail_nil]
    simp [space_fields, List.splitOnP_eq_single _ _ htok, hne, List.splitOnP_nil]
  | cons d r =>
    have hd : d = SPACE := by
      have := List.head_dropWhile_not (fun c => c != SPACE) (c :: s) (by rw [hr]; simp)
      simpa [hr] using this
    subst hd
    rw [← hsplit]
    simp only [List.tail_cons]
    rw [space_fields, List.splitOnP_first _ _ htok SPACE (by simp)]
    simp [space_fields, hne]

theorem strtok_of_fields_nil (s : string_t) (h : space_fields s = []) :
    (strtok s).1 = none := by
  unfold strtok
  cases hs : s.dropWhile (fun c => c == SPACE) with
  | nil => simp
  | cons c r =>
    exfalso
    have hc : c ≠ SPACE := by
      have := List.head_dropWhile_not (fun c => c == SPACE) s (by rw [hs]; simp)
      simpa [hs] using this
    rw [← space_fields_dropWhile, hs, space_fields_token c r hc] at h
    simp at h

theorem strtok_of_fields_cons (s t : string_t) (ts : List string_t)
    (h : space_fields s = t :: ts) :
    ∃ r, strtok s = (some t, r) ∧ space_fields r = ts ∧ r.length < s.length := by
  unfold strtok
  have hlen : (s.dropWhile (fun c => c == SPACE)).length ≤ s.length :=
    (List.dropWhile_sublist _).length_le
  cases hs : s.dropWhile (fun c => c == SPACE) with
  | nil =>
    rw [← space_fields_dropWhile, hs, space_fields_nil] at h
    simp at h
  | cons c r =>
    have hc : c ≠ SPACE := by
      have := List.head_dropWhile_not (fun c => c == SPACE) s (by rw [hs]; simp)
      simpa [hs] using this
    rw [← space_fields_dropWhile, hs, space_fields_token c r hc] at h
    rw [hs] at hlen
    injection h with h1 h2
    refine ⟨((c :: r).dropWhile (fun c => c != SPACE)).tail, ?_, h2, ?_⟩
    · simp [h1]
    · have h3 : ((c :: r).dropWhile (fun c => c != SPACE)).length ≤ (c :: r).length :=
        (List.dropWhile_sublist _).length_le
      have h4 : ((c :: r).dropWhile (fun c => c != SPACE)).tail.length
          ≤ ((c :: r).dropWhile (fun c => c != SPACE)).length - 1 := by simp
      have h5 : ((c :: r).dropWhile (fun c => c != SPACE)).length ≤ r.length := by
        simp only [List.dropWhile_cons, bne_iff_ne, ne_eq, hc, not_false_eq_true, decide_True,
          ↓reduceIte]
        exact (List.dropWhile_sublist _).length_le
      simp only [List.length_cons] at hlen h3
      omega

/-! ## Lemmas on the tokenizer -/

theorem put_tokens_length (ts : List string_t) :
    ∀ (tl : token_array) (i : Nat), (put_tokens tl i ts).length = tl.length := by
  induction ts with
  | nil => intro tl i; rfl
  | cons t ts ih => intro tl i; simp [put_tokens, ih]

theorem tokens_from_line_loop_eq :
    ∀ (fuel : Nat) (saved : string_t) (tl : token_array) (index : Nat),
      saved.length < fuel → index ≤ tl.length →
      tokens_from_line_loop fuel saved tl index
        = if index + (space_fields saved).length ≤ tl.length then
            .ok (put_tokens tl index (space_fields saved), index + (space_fields saved).length)
          else .error .out_of_bounds := by
  intro fuel
  induction fuel with
  | zero => intro saved tl index h; omega
  | succ fuel ih =>
    intro saved tl index hfuel hle
    cases hf : space_fields saved with
    | nil =>
      have h1 := strtok_of_fields_nil saved hf
      unfold tokens_from_line_loop
      cases hst : strtok saved with
      | mk a b =>
        rw [hst] at h1
        simp only at h1
        subst h1
        simp [put_tokens, hle]
    | cons t ts =>
      obtain ⟨r, hr, hrs, hrl⟩ := strtok_of_fields_cons saved t ts hf
      unfold tokens_from_line_loop
      rw [hr]
      simp only
      by_cases hidx : index < tl.length
      · rw [if_pos hidx, ih r _ _ (by omega) (by simp; omega), hrs]
        simp only [List.length_set, List.length_cons, put_tokens]
        have e : index + 1 + ts.length = index + (ts.length + 1) := by omega
        rw [e]
      · rw [if_neg hidx, if_neg]
        simp only [List.length_cons]
        omega

theorem tokens_from_line_fields (line key : string_t) (rest : List string_t)
    (tl : token_array) (h : space_fields line = key :: rest) :
    tokens_from_line tl (some line)
      = if key = "intr".toList then .ok none
        else if 0 < tl.length then
          (if rest.length ≤ tl.length then
            .ok (some (key, put_tokens (tl.set 0 (some key)) 0 rest, rest.length + 1))
           else .error .out_of_bounds)
        else .error .out_of_bounds := by
  obtain ⟨r, hr, hrs, _⟩ := strtok_of_fields_cons line key rest h
  unfold tokens_from_line
  simp only [hr]
  by_cases hk : key = "intr".toList
  · simp [hk]
  · simp only [hk, if_false]
    by_cases h0 : 0 < tl.length
    · simp only [h0, if_true]
      rw [tokens_from_line_loop_eq _ _ _ _ (Nat.lt_succ_self _) (Nat.zero_le _), hrs]
      simp only [List.length_set, Nat.zero_add]
      by_cases hl : rest.length ≤ tl.length
      · simp [hl]
      · simp [hl]
    · simp [h0]

theorem tokens_from_line_blank (line : string_t) (tl : token_array)
    (h : space_fields line = []) :
    tokens_from_line tl (some line) = .error .null_deref := by
  have h1 := strtok_of_fields_nil line h
  unfold tokens_from_line
  cases hst : strtok line with
  | mk a b =>
    rw [hst] at h1
    simp only at h1
    subst h1
    simp only [hst]

theorem put_tokens_get_lt (ts : List string_t) :
    ∀ (tl : token_array) (i j : Nat), j < i → (put_tokens tl i ts).get? j = tl.get? j := by
  induction ts with
  | nil => intro tl i j _; rfl
  | cons t ts ih =>
    intro tl i j hj
    rw [put_tokens, ih _ _ _ (by omega)]
    simp only [List.get?_eq_getElem?]
    rw [List.getElem?_set_ne (by omega)]

theorem put_tokens_get (ts : List string_t) :
    ∀ (tl : token_array) (i k : Nat), i + ts.length ≤ tl.length → k < ts.length →
      (put_tokens tl i ts).get? (i + k) = some (ts.get? k) := by
  induction ts with
  | nil => intro tl i k _ hk; simp at hk
  | cons t ts ih =>
    intro tl i k hle hk
    simp only [List.length_cons] at hle hk
    rw [put_tokens]
    cases k with
    | zero =>
      have e := put_tokens_get_lt ts (tl.set i (some t)) (i + 1) i (Nat.lt_succ_self i)
      simp only [Nat.add_zero]
      rw [e]
      simp only [List.get?_eq_getElem?]
      rw [List.getElem?_set_self (by omega)]
      simp
    | succ k =>
      have e : i + (k + 1) = (i + 1) + k := by omega
      rw [e, ih _ _ _ (by simp; omega) (by omega)]
      simp

theorem read_token_put_tokens (ts : List string_t) (tl : token_array) (k : Nat)
    (hle : ts.length ≤ tl.length) (hk : k < ts.length) :
    read_token (put_tokens tl 0 ts) k = .ok (ts.get? k) := by
  have h := put_tokens_get ts tl 0 k (by omega) hk
  rw [Nat.zero_add] at h
  unfold read_token
  rw [h]
  cases hg : ts.get? k with
  | none =>
    simp only [List.get?_eq_getElem?] at hg
    rw [List.getElem?_eq_none_iff] at hg
    omega
  | some t => rfl

/-! ## Lemmas on `fgets` and the reading loops -/

theorem fgets_chars_line (b : string_t) (rest : string_t) :
    ∀ n : Nat, LF ∉ b → b.length < n → fgets_chars n (b ++ LF :: rest) = (b ++ [LF], rest) := by
  induction b with
  | nil =>
    intro n _ hn
    simp only [List.length_nil] at hn
    simp [fgets_chars, Nat.pos_iff_ne_zero.mp hn]
  | cons c b ih =>
    intro n hb hn
    simp only [List.mem_cons, not_or] at hb
    simp only [List.length_cons] at hn
    have hc : c ≠ LF := fun h => hb.1 h.symm
    have h0 : n ≠ 0 := by omega
    have e := ih (n - 1) hb.2 (by omega)
    simp only [List.cons_append, fgets_chars, h0, if_false, hc, List.append_eq, e]

theorem text_line_split (l : string_t) (h : text_line l) :
    ∃ b, l = b ++ [LF] ∧ LF ∉ b ∧ b.length + 1 < MAX_PROCFILE_LINE_LENGTH := by
  obtain ⟨h1, h2, h3⟩ := h
  have hne : l ≠ [] := by intro e; rw [e] at h1; simp at h1
  have hl := List.dropLast_append_getLast hne
  have hlast : l.getLast hne = LF := by
    rw [List.getLast?_eq_getLast _ hne] at h1
    exact Option.some.inj h1
  rw [hlast] at hl
  refine ⟨l.dropLast, hl.symm, h2, ?_⟩
  simp only [List.length_dropLast]
  have : 0 < l.length := List.length_pos.mpr hne
  omega

theorem fgets_text_line (l rest : string_t) (h : text_line l) :
    fgets MAX_PROCFILE_LINE_LENGTH (l ++ rest) = some (l, rest) := by
  obtain ⟨b, hb, hnb, hlen⟩ := text_line_split l h
  subst hb
  unfold fgets
  have : b ++ [LF] ++ rest = b ++ LF :: rest := by simp
  rw [this, if_neg (by simp), fgets_chars_line b rest _ hnb (by omega)]

theorem fgets_chars_rest_le :
    ∀ (s : string_t) (n : Nat), (fgets_chars n s).2.length ≤ s.length := by
  intro s
  induction s with
  | nil => intro n; simp [fgets_chars]
  | cons c s ih =>
    intro n
    unfold fgets_chars
    by_cases h0 : n = 0
    · simp [h0]
    · by_cases hc : c = LF
      · simp [h0, hc]
      · simp only [h0, hc, if_false, List.length_cons]
        exact Nat.le_succ_of_le (ih (n - 1))

theorem fgets_rest_lt (f l r : string_t)
    (h : fgets MAX_PROCFILE_LINE_LENGTH f = some (l, r)) : r.length < f.length := by
  unfold fgets at h
  cases f with
  | nil => simp at h
  | cons c s =>
    simp only [if_neg (List.cons_ne_nil c s), Option.some.injEq] at h
    have h2 : (fgets_chars (MAX_PROCFILE_LINE_LENGTH - 1) (c :: s)).2 = r := by rw [h]
    rw [← h2]
    unfold fgets_chars
    have h0 : MAX_PROCFILE_LINE_LENGTH - 1 ≠ 0 := by decide
    by_cases hc : c = LF
    · simp [h0, hc]
    · simp only [h0, hc, if_false, List.length_cons]
      exact Nat.lt_succ_of_le (fgets_chars_rest_le s _)

theorem text_line_length_pos (l : string_t) (h : text_line l) : 0 < l.length := by
  obtain ⟨b, hb, _, _⟩ := text_line_split l h
  subst hb
  simp

theorem update_cpu_stats_loop_fuel :
    ∀ (n m : Nat) (f : string_t) (g : globals), f.length < n → f.length < m →
      update_cpu_stats_loop n f g = update_cpu_stats_loop m f g := by
  intro n
  induction n with
  | zero => intro m f g h; omega
  | succ n ih =>
    intro m f g hn hm
    cases m with
    | zero => omega
    | succ m =>
      unfold update_cpu_stats_loop
      cases hf : fgets MAX_PROCFILE_LINE_LENGTH f with
      | none => rfl
      | some lr =>
        obtain ⟨l, r⟩ := lr
        have hr := fgets_rest_lt f l r hf
        simp only
        cases update_cpu_stats_line l g with
        | error e => rfl
        | ok g1 => exact ih m r g1 (by omega) (by omega)

theorem update_cpu_stats_cons (l rest : string_t) (g : globals) (h : text_line l) :
    update_cpu_stats (l ++ rest) g
      = match update_cpu_stats_line l g with
        | .error e => .error e
        | .ok g1 => update_cpu_stats rest g1 := by
  have hpos := text_line_length_pos l h
  unfold update_cpu_stats
  rw [update_cpu_stats_loop, fgets_text_line l rest h]
  simp only
  cases update_cpu_stats_line l g with
  | error e => rfl
  | ok g1 =>
    exact update_cpu_stats_loop_fuel _ _ rest g1 (by simp; omega) (by omega)

theorem fgets_chars_full (rest : string_t) :
    ∀ (b : string_t) (n : Nat), LF ∉ b → b.length = n →
      fgets_chars n (b ++ rest) = (b, rest) := by
  intro b
  induction b with
  | nil =>
    intro n _ hn
    simp only [List.length_nil] at hn
    subst hn
    cases rest with
    | nil => rfl
    | cons c s => simp [fgets_chars]
  | cons c b ih =>
    intro n hlf hn
    simp only [List.mem_cons, not_or] at hlf
    simp only [List.length_cons] at hn
    have h0 : n ≠ 0 := by omega
    have hc : c ≠ LF := fun e => hlf.1 e.symm
    have e := ih (n - 1) hlf.2 (by omega)
    simp only [List.cons_append, fgets_chars, h0, hc, if_false, List.append_eq, e]

theorem fgets_full_buffer (head rest : string_t)
    (hlen : head.length = MAX_PROCFILE_LINE_LENGTH - 1) (hlf : LF ∉ head) :
    fgets MAX_PROCFILE_LINE_LENGTH (head ++ rest) = some (head, rest) := by
  unfold fgets
  have hne : head ++ rest ≠ [] := by
    intro e
    have := congrArg List.length e
    simp only [List.length_append, List.length_nil] at this
    have h0 : MAX_PROCFILE_LINE_LENGTH - 1 = 8191 := by decide
    omega
  rw [if_neg hne, fgets_chars_full rest head _ hlf hlen]

theorem update_cpu_stats_full_buffer (head rest : string_t) (g : globals)
    (hlen : head.length = MAX_PROCFILE_LINE_LENGTH - 1) (hlf : LF ∉ head) :
    update_cpu_stats (head ++ rest) g
      = match update_cpu_stats_line head g with
        | .error e => .error e
        | .ok g1 => update_cpu_stats rest g1 := by
  have h0 : MAX_PROCFILE_LINE_LENGTH - 1 = 8191 := by decide
  unfold update_cpu_stats
  rw [update_cpu_stats_loop, fgets_full_buffer head rest hlen hlf]
  simp only
  cases update_cpu_stats_line head g with
  | error e => rfl
  | ok g1 =>
    exact update_cpu_stats_loop_fuel _ _ rest g1 (by simp; omega) (by omega)

theorem update_meminfo_loop_fuel :
    ∀ (n m : Nat) (f : string_t) (g : globals), f.length < n → f.length < m →
      update_meminfo_loop n f g = update_meminfo_loop m f g := by
  intro n
  induction n with
  | zero => intro m f g h; omega
  | succ n ih =>
    intro m f g hn hm
    cases m with
    | zero => omega
    | succ m =>
      unfold update_meminfo_loop
      cases hf : fgets MAX_PROCFILE_LINE_LENGTH f with
      | none => rfl
      | some lr =>
        obtain ⟨l, r⟩ := lr
        have hr := fgets_rest_lt f l r hf
        simp only
        cases update_meminfo_line l g with
        | error e => rfl
        | ok g1 => exact ih m r g1 (by omega) (by omega)

theorem update_meminfo_cons (l rest : string_t) (g : globals) (h : text_line l) :
    update_meminfo (l ++ rest) g
      = match update_meminfo_line l g with
        | .error e => .error e
        | .ok g1 => update_meminfo rest g1 := by
  have hpos := text_line_length_pos l h
  unfold update_meminfo
  rw [update_meminfo_loop, fgets_text_line l rest h]
  simp only
  cases update_meminfo_line l g with
  | error e => rfl
  | ok g1 =>
    exact update_meminfo_loop_fuel _ _ rest g1 (by simp; omega) (by omega)

/-! ## Lemmas on the CPU mapper -/

theorem cpu_row_keys_facts :
    ∀ k ∈ cpu_row_keys, k ≠ "intr".toList ∧ k.length < MAX_CPU_DATA_SIZE := by
  decide

theorem update_cpu_index_ok (i : Nat) (key : string_t) (tl : token_array) (g : globals)
    (tokens : List string_t) (hi : i < g.cpu_stats.cpu.length)
    (hten : 10 ≤ tokens.length)
    (hread : ∀ k, k < 10 → read_token tl k = .ok (tokens.get? k))
    (hkey : key.length < MAX_CPU_DATA_SIZE)
    (hfit : ∀ t ∈ tokens.take 10, t.length < MAX_CPU_DATA_SIZE) :
    update_cpu_index i key tl g
      = .ok { g with cpu_stats := { g.cpu_stats with
          cpu := g.cpu_stats.cpu.set i (cpu_line_of key tokens) } } := by
  rcases tokens with _ | ⟨t0, _ | ⟨t1, _ | ⟨t2, _ | ⟨t3, _ | ⟨t4, _ | ⟨t5, _ | ⟨t6, _ | ⟨t7,
    _ | ⟨t8, _ | ⟨t9, extra⟩⟩⟩⟩⟩⟩⟩⟩⟩⟩ <;> simp only [List.length_cons, List.length_nil] at hten
    <;> try omega
  have r0 := hread 0 (by omega)
  have r1 := hread 1 (by omega)
  have r2 := hread 2 (by omega)
  have r3 := hread 3 (by omega)
  have r4 := hread 4 (by omega)
  have r5 := hread 5 (by omega)
  have r6 := hread 6 (by omega)
  have r7 := hread 7 (by omega)
  have r8 := hread 8 (by omega)
  have r9 := hread 9 (by omega)
  simp only [List.get?_cons_zero, List.get?_cons_succ] at r0 r1 r2 r3 r4 r5 r6 r7 r8 r9
  simp only [List.take_succ_cons, List.take_zero, List.mem_cons, List.mem_nil_iff, or_false,
    forall_eq_or_imp, forall_eq] at hfit
  obtain ⟨f0, f1, f2, f3, f4, f5, f6, f7, f8, f9⟩ := hfit
  simp [update_cpu_index, hi, strcpy_token, strcpy, r0, r1, r2, r3, r4, r5, r6, r7, r8, r9,
    f0, f1, f2, f3, f4, f5, f6, f7, f8, f9, hkey, bind, Except.bind, pure, Except.pure,
    cpu_line_of]

theorem cpu_statement_eq (e : string_t × cpu_target) (key : string_t) (tl : token_array)
    (g : globals) :
    cpu_statement e key tl g
      = if key = e.1 then cpu_target_run e.2 key tl g else .ok g := by
  obtain ⟨k, t⟩ := e
  by_cases h : key = k
  · subst h
    cases t <;> simp [cpu_statement, cpu_target_run, cpu_row_if]
  · cases t <;> simp [cpu_statement, cpu_row_if, cpu_scalar_if, h]

theorem schema_fold_skip {α : Type} (key : string_t)
    (stmt : string_t × α → globals → Except Fault globals)
    (run : α → globals → Except Fault globals)
    (hstmt : ∀ e g, stmt e g = if key = e.1 then run e.2 g else .ok g)
    (es : List (string_t × α)) :
    ∀ g : globals, key ∉ es.map (fun e => e.1) →
      es.foldlM (fun g e => stmt e g) g = .ok g := by
  induction es with
  | nil => intro g _; rfl
  | cons e es ih =>
    intro g hk
    simp only [List.map_cons, List.mem_cons, not_or] at hk
    rw [List.foldlM_cons, hstmt, if_neg hk.1]
    exact ih g hk.2

theorem schema_fold_lookup {α : Type} (key : string_t)
    (stmt : string_t × α → globals → Except Fault globals)
    (run : α → globals → Except Fault globals)
    (hstmt : ∀ e g, stmt e g = if key = e.1 then run e.2 g else .ok g)
    (es : List (string_t × α)) :
    ∀ g : globals, (es.map (fun e => e.1)).Nodup →
      es.foldlM (fun g e => stmt e g) g
        = ((es.find? (fun e => decide (e.1 = key))).map (fun e => e.2)).elim (.ok g)
            (fun t => run t g) := by
  induction es with
  | nil => intro g _; rfl
  | cons e es ih =>
    intro g hnd
    simp only [List.map_cons, List.nodup_cons] at hnd
    rw [List.foldlM_cons, hstmt]
    by_cases hk : key = e.1
    · have hfind : (e :: es).find? (fun e => decide (e.1 = key)) = some e := by
        simp [List.find?_cons, hk]
      rw [hfind, if_pos hk]
      simp only [Option.map_some', Option.elim_some]
      cases hres : run e.2 g with
      | error err => rfl
      | ok g1 =>
        exact schema_fold_skip key stmt run hstmt es g1 (by rw [hk]; exact hnd.1)
    · have hfind : (e :: es).find? (fun e => decide (e.1 = key))
          = es.find? (fun e => decide (e.1 = key)) := by
        simp [List.find?_cons, Ne.symm hk]
      rw [hfind, if_neg hk]
      exact ih g hnd.2

theorem update_cpu_stats_dispatch_fold (key : string_t) (tl : token_array) (g : globals) :
    update_cpu_stats_dispatch key tl g
      = cpu_schema.foldlM (fun g e => cpu_statement e key tl g) g := by
  simp only [update_cpu_stats_dispatch, cpu_schema, List.foldlM_cons, List.foldlM_nil,
    cpu_statement, bind_pure]

theorem cpu_schema_nodup : (cpu_schema.map (fun e => e.1)).Nodup := by
  decide

theorem update_cpu_stats_dispatch_lookup (key : string_t) (tl : token_array) (g : globals) :
    update_cpu_stats_dispatch key tl g
      = match cpu_schema_lookup key with
        | none => .ok g
        | some t => cpu_target_run t key tl g := by
  rw [update_cpu_stats_dispatch_fold,
    schema_fold_lookup key (fun e g => cpu_statement e key tl g)
      (fun t g => cpu_target_run t key tl g) (fun e g => cpu_statement_eq e key tl g)
      cpu_schema g cpu_schema_nodup]
  unfold cpu_schema_lookup
  cases (cpu_schema.find? (fun e => decide (e.1 = key))).map (fun e => e.2) <;> rfl

theorem cpu_schema_facts :
    ∀ e ∈ cpu_schema, e.1.length < MAX_CPU_DATA_SIZE ∧ cpu_target_in_table e.2 = true := by
  decide

theorem cpu_schema_lookup_mem (key : string_t) (t : cpu_target)
    (h : cpu_schema_lookup key = some t) : (key, t) ∈ cpu_schema := by
  unfold cpu_schema_lookup at h
  cases hf : cpu_schema.find? (fun e => decide (e.1 = key)) with
  | none => rw [hf] at h; simp at h
  | some e =>
    rw [hf] at h
    simp only [Option.map_some', Option.some.injEq] at h
    have h1 := List.find?_some hf
    have h2 := List.mem_of_find?_eq_some hf
    simp only [decide_eq_true_eq] at h1
    obtain ⟨k, t1⟩ := e
    simp only at h h1
    subst h h1
    exact h2

theorem update_cpu_stats_line_fields (line key : string_t) (tokens : List string_t)
    (g : globals) (hline : space_fields line = key :: tokens) (hk : key ≠ "intr".toList)
    (hmax : tokens.length ≤ MAX_PROCFILE_TOKEN_AMOUNT) :
    update_cpu_stats_line line g
      = update_cpu_stats_dispatch key
          (put_tokens (fresh_token_list.set 0 (some key)) 0 tokens) g := by
  have hlen : tokens.length ≤ fresh_token_list.length := by
    simpa [fresh_token_list] using hmax
  have htok := tokens_from_line_fields line key tokens fresh_token_list hline
  rw [if_neg hk, if_pos (by decide), if_pos hlen] at htok
  unfold update_cpu_stats_line
  rw [htok]
  simp only [Nat.lt_one_iff, Nat.add_one_ne_zero, if_false]

theorem update_cpu_stats_line_intr (line : string_t) (ignored : List string_t) (g : globals)
    (hline : space_fields line = "intr".toList :: ignored) :
    update_cpu_stats_line line g = .ok g := by
  have htok := tokens_from_line_fields line _ ignored fresh_token_list hline
  rw [if_pos rfl] at htok
  unfold update_cpu_stats_line
  rw [htok]

theorem cpu_target_run_ok (t : cpu_target) (key : string_t) (tokens : List string_t)
    (tl : token_array) (g : globals)
    (hread : ∀ k, k < tokens.length → read_token tl k = .ok (tokens.get? k))
    (hneed : cpu_target_tokens t ≤ tokens.length)
    (hfit : ∀ x ∈ tokens.take (cpu_target_tokens t), x.length < MAX_CPU_DATA_SIZE)
    (hkey : key.length < MAX_CPU_DATA_SIZE)
    (hrow : cpu_target_in_table t = true)
    (hrows : g.cpu_stats.cpu.length = NUM_CPU_LINES) :
    cpu_target_run t key tl g
      = .ok { g with cpu_stats := cpu_target_write t key tokens g.cpu_stats } := by
  cases t with
  | row i =>
    simp only [cpu_target_in_table, decide_eq_true_eq] at hrow
    simp only [cpu_target_tokens] at hneed hfit
    exact update_cpu_index_ok i key tl g tokens (by omega) hneed
      (fun k hk => hread k (by omega)) hkey hfit
  | _ =>
    simp only [cpu_target_tokens] at hneed hfit
    rcases tokens with _ | ⟨t0, rest⟩
    · simp at hneed
    · have r0 := hread 0 (by simp)
      have f0 : t0.length < MAX_CPU_DATA_SIZE := hfit t0 (by simp)
      simp [cpu_target_run, cpu_scalar_if, strcpy_token, r0, strcpy, f0, bind, Except.bind,
        pure, Except.pure, cpu_target_write]

theorem update_cpu_stats_line_write (line key : string_t) (tokens : List string_t)
    (g : globals) (t : cpu_target)
    (hline : space_fields line = key :: tokens)
    (hmax : tokens.length ≤ MAX_PROCFILE_TOKEN_AMOUNT)
    (hl : cpu_schema_lookup key = some t)
    (hneed : cpu_target_tokens t ≤ tokens.length)
    (hfit : ∀ x ∈ tokens.take (cpu_target_tokens t), x.length < MAX_CPU_DATA_SIZE)
    (hrows : g.cpu_stats.cpu.length = NUM_CPU_LINES) :
    update_cpu_stats_line line g
      = .ok { g with cpu_stats := cpu_target_write t key tokens g.cpu_stats } := by
  have hk : key ≠ "intr".toList := by
    intro e
    have hn : cpu_schema_lookup "intr".toList = none := by decide
    rw [e, hn] at hl
    cases hl
  rw [update_cpu_stats_line_fields line key tokens g hline hk hmax,
    update_cpu_stats_dispatch_lookup, hl]
  obtain ⟨h3, h4⟩ := cpu_schema_facts _ (cpu_schema_lookup_mem key t hl)
  have hlen : tokens.length ≤ (fresh_token_list.set 0 (some key)).length := by
    simpa [fresh_token_list] using hmax
  exact cpu_target_run_ok t key tokens _ g
    (fun k hk => read_token_put_tokens tokens _ k hlen hk) hneed hfit h3 h4 hrows

theorem strtok_token_props (s t r : string_t) (h : strtok s = (some t, r)) :
    t ≠ [] ∧ SPACE ∉ t := by
  unfold strtok at h
  cases hs : s.dropWhile (fun c => c == SPACE) with
  | nil => rw [hs] at h; simp at h
  | cons c s1 =>
    rw [hs] at h
    have hc : c ≠ SPACE := by
      have := List.head_dropWhile_not (fun c => c == SPACE) s (by rw [hs]; simp)
      simpa [hs] using this
    simp only [List.cons_ne_nil, if_false, Prod.mk.injEq, Option.some.injEq] at h
    obtain ⟨h1, _⟩ := h
    subst h1
    refine ⟨by simp [List.takeWhile_cons, hc], ?_⟩
    intro hmem
    have := List.mem_takeWhile_imp hmem
    simp at this

theorem space_fields_props :
    ∀ (n : Nat) (s : string_t), s.length ≤ n → ∀ t ∈ space_fields s, t ≠ [] ∧ SPACE ∉ t := by
  intro n
  induction n with
  | zero =>
    intro s hs t ht
    have : s = [] := List.eq_nil_of_length_eq_zero (by omega)
    subst this
    rw [space_fields_nil] at ht
    simp at ht
  | succ n ih =>
    intro s hs t ht
    cases hf : space_fields s with
    | nil => rw [hf] at ht; simp at ht
    | cons t0 ts =>
      obtain ⟨r, hr, hrs, hrl⟩ := strtok_of_fields_cons s t0 ts hf
      rw [hf] at ht
      rcases List.mem_cons.mp ht with h | h
      · subst h
        exact strtok_token_props s t r hr
      · exact ih r (by omega) t (by rw [hrs]; exact h)

/-! ## Claim C1 -/

/-- Claim C1. For every line whose space-delimited fields are a key `cpu` or
`cpuN` (N in 0..15) followed by ten counter tokens that fit their fields,
`tokens_from_line` returns the key, and `update_cpu_index` on its output
succeeds for any row of the table; reading the ten counter fields of that row
back gives exactly the ten supplied tokens in order, and the row's name is the
key. -/
theorem cpu_line_round_trip (line key : string_t) (tokens : List string_t) (cpu_index : Nat)
    (g : globals)
    (hkey : key ∈ cpu_row_keys)
    (hline : space_fields line = key :: tokens)
    (hten : tokens.length = 10)
    (hfit : ∀ t ∈ tokens, t.length < MAX_CPU_DATA_SIZE)
    (hrow : cpu_index < g.cpu_stats.cpu.length) :
    ∃ token_list num_tokens g1,
      tokens_from_line fresh_token_list (some line) = .ok (some (key, token_list, num_tokens))
      ∧ update_cpu_index cpu_index key token_list g = .ok g1
      ∧ (g1.cpu_stats.cpu.get? cpu_index).map cpu_line_counters = some tokens
      ∧ (g1.cpu_stats.cpu.get? cpu_index).map (fun r => r.name) = some key := by
  obtain ⟨hk1, hk2⟩ := cpu_row_keys_facts key hkey
  have hlen : tokens.length ≤ fresh_token_list.length := by
    rw [hten]; decide
  have htok := tokens_from_line_fields line key tokens fresh_token_list hline
  rw [if_neg hk1, if_pos (by decide), if_pos hlen] at htok
  have hupd := update_cpu_index_ok cpu_index key
    (put_tokens (fresh_token_list.set 0 (some key)) 0 tokens) g tokens hrow (by omega)
    (fun k hk => read_token_put_tokens tokens _ k (by simpa using hlen) (by omega)) hk2
    (fun t ht => hfit t (List.mem_of_mem_take ht))
  refine ⟨_, _, _, htok, hupd, ?_, ?_⟩
  · rcases tokens with _ | ⟨t0, _ | ⟨t1, _ | ⟨t2, _ | ⟨t3, _ | ⟨t4, _ | ⟨t5, _ | ⟨t6, _ | ⟨t7,
      _ | ⟨t8, _ | ⟨t9, _ | ⟨t10, extra⟩⟩⟩⟩⟩⟩⟩⟩⟩⟩⟩ <;> simp at hten
    simp [List.getElem?_set_self hrow, cpu_line_counters, cpu_line_of]
  · simp [List.getElem?_set_self hrow, cpu_line_of]

theorem cpu_line_round_trip_witness :
    ∃ token_list num_tokens g1,
      tokens_from_line fresh_token_list (some "cpu3 11 12 13 14 15 16 17 18 19 20\n".toList)
        = .ok (some ("cpu3".toList, token_list, num_tokens))
      ∧ update_cpu_index 4 "cpu3".toList token_list blank_globals = .ok g1
      ∧ (g1.cpu_stats.cpu.get? 4).map cpu_line_counters
          = some ["11".toList, "12".toList, "13".toList, "14".toList, "15".toList, "16".toList,
              "17".toList, "18".toList, "19".toList, "20\n".toList]
      ∧ (g1.cpu_stats.cpu.get? 4).map (fun r => r.name) = some "cpu3".toList :=
  cpu_line_round_trip "cpu3 11 12 13 14 15 16 17 18 19 20\n".toList "cpu3".toList
    ["11".toList, "12".toList, "13".toList, "14".toList, "15".toList, "16".toList,
      "17".toList, "18".toList, "19".toList, "20\n".toList] 4 blank_globals
    (by decide) (by decide) (by decide) (by decide) (by decide)

/-! ## Lemmas on the network mapper -/

theorem copy_to_network_struct_ok (i : Nat) (line : string_t) (g : globals)
    (hi : i < g.network_info.devices.length) (hl : device_line line) :
    copy_to_network_struct i line g
      = .ok { g with network_info := { g.network_info with
          devices := g.network_info.devices.set i (network_device_of (space_fields line)) } } := by
  obtain ⟨hlen, hfit⟩ := hl
  rcases hs : space_fields line with _ | ⟨f0, _ | ⟨f1, _ | ⟨f2, _ | ⟨f3, _ | ⟨f4, _ | ⟨f5, _ | ⟨f6, _ | ⟨f7, _ | ⟨f8, _ | ⟨f9, _ | ⟨f10, _ | ⟨f11, _ | ⟨f12, _ | ⟨f13, _ | ⟨f14, _ | ⟨f15, extra⟩⟩⟩⟩⟩⟩⟩⟩⟩⟩⟩⟩⟩⟩⟩⟩ <;>
    rw [hs] at hlen hfit <;> simp only [List.length_cons, List.length_nil] at hlen <;> try omega
  simp only [List.take_succ_cons, List.take_zero, List.mem_cons, List.mem_nil_iff, or_false,
    forall_eq_or_imp, forall_eq] at hfit
  obtain ⟨c0, c1, c2, c3, c4, c5, c6, c7, c8, c9, c10, c11, c12, c13, c14, c15⟩ := hfit
  obtain ⟨r0, e0, s0, _⟩ := strtok_of_fields_cons line f0 _ hs
  obtain ⟨r1, e1, s1, _⟩ := strtok_of_fields_cons r0 f1 _ s0
  obtain ⟨r2, e2, s2, _⟩ := strtok_of_fields_cons r1 f2 _ s1
  obtain ⟨r3, e3, s3, _⟩ := strtok_of_fields_cons r2 f3 _ s2
  obtain ⟨r4, e4, s4, _⟩ := strtok_of_fields_cons r3 f4 _ s3
  obtain ⟨r5, e5, s5, _⟩ := strtok_of_fields_cons r4 f5 _ s4
  obtain ⟨r6, e6, s6, _⟩ := strtok_of_fields_cons r5 f6 _ s5
  obtain ⟨r7, e7, s7, _⟩ := strtok_of_fields_cons r6 f7 _ s6
  obtain ⟨r8, e8, s8, _⟩ := strtok_of_fields_cons r7 f8 _ s7
  obtain ⟨r9, e9, s9, _⟩ := strtok_of_fields_cons r8 f9 _ s8
  obtain ⟨r10, e10, s10, _⟩ := strtok_of_fields_cons r9 f10 _ s9
  obtain ⟨r11, e11, s11, _⟩ := strtok_of_fields_cons r10 f11 _ s10
  obtain ⟨r12, e12, s12, _⟩ := strtok_of_fields_cons r11 f12 _ s11
  obtain ⟨r13, e13, s13, _⟩ := strtok_of_fields_cons r12 f13 _ s12
  obtain ⟨r14, e14, s14, _⟩ := strtok_of_fields_cons r13 f14 _ s13
  obtain ⟨r15, e15, s15, _⟩ := strtok_of_fields_cons r14 f15 _ s14
  simp [copy_to_network_struct, hi, e0, e1, e2, e3, e4, e5, e6, e7, e8, e9, e10, e11, e12, e13, e14, e15,
    strcpy, c0, c1, c2, c3, c4, c5, c6, c7, c8, c9, c10, c11, c12, c13, c14, c15,
    bind, Except.bind, pure, Except.pure, network_device_of]

theorem update_network_info_loop_header (fuel : Nat) (h rest : string_t)
    (line_index device_index : Nat) (g : globals) (hh : text_line h) (hl : line_index < 2) :
    update_network_info_loop (fuel + 1) (h ++ rest) line_index device_index g
      = update_network_info_loop fuel rest (line_index + 1) device_index g := by
  rw [update_network_info_loop, fgets_text_line h rest hh]
  simp only [hl, if_true]

theorem update_network_info_loop_devices :
    ∀ (devs : List string_t) (fuel di : Nat) (rest : string_t) (g : globals),
      (∀ l ∈ devs, text_line l ∧ device_line l) →
      g.network_info.devices.length = MAX_NETWORK_DEVICES →
      di + devs.length ≤ MAX_NETWORK_DEVICES →
      (rest = [] ∨ (devs ≠ [] ∧ di + devs.length = MAX_NETWORK_DEVICES)) →
      (devs.flatten ++ rest).length < fuel →
      ∃ g1, update_network_info_loop fuel (devs.flatten ++ rest) 2 di g
              = .ok (di + devs.length, g1)
        ∧ g1.cpu_stats = g.cpu_stats ∧ g1.mem_info = g.mem_info
        ∧ g1.network_info.num_devices = g.network_info.num_devices
        ∧ g1.network_info.devices.length = g.network_info.devices.length
        ∧ (∀ j, j < devs.length →
            g1.network_info.devices.get? (di + j)
              = (devs.get? j).map (fun l => network_device_of (space_fields l)))
        ∧ (∀ i, i < di ∨ di + devs.length ≤ i →
            g1.network_info.devices.get? i = g.network_info.devices.get? i) := by
  intro devs
  induction devs with
  | nil =>
    intro fuel di rest g _ _ _ hrest hfuel
    have hr : rest = [] := by
      rcases hrest with h | h
      · exact h
      · exact absurd rfl h.1
    subst hr
    cases fuel with
    | zero => simp at hfuel
    | succ fuel =>
      refine ⟨g, ?_, rfl, rfl, rfl, rfl, ?_, ?_⟩
      · simp [update_network_info_loop, fgets]
      · intro j hj; simp at hj
      · intro i _; rfl
  | cons l ls ih =>
    intro fuel di rest g hdev hg hcap hrest hfuel
    have hl := hdev l (List.mem_cons_self l ls)
    have hpos := text_line_length_pos l hl.1
    simp only [List.length_cons] at hcap
    unfold MAX_NETWORK_DEVICES at hcap hg
    cases fuel with
    | zero => simp at hfuel
    | succ fuel =>
      have hcopy := copy_to_network_struct_ok di l g (by omega) hl.2
      rw [List.flatten_cons, List.append_assoc, update_network_info_loop,
        fgets_text_line l _ hl.1]
      simp only [Nat.lt_irrefl, if_false, hcopy]
      by_cases hbreak : di + 1 ≥ MAX_NETWORK_DEVICES
      · unfold MAX_NETWORK_DEVICES at hbreak
        have hls : ls = [] := by
          apply List.eq_nil_of_length_eq_zero
          omega
        subst hls
        rw [if_pos (by unfold MAX_NETWORK_DEVICES; exact hbreak)]
        refine ⟨_, rfl, rfl, rfl, rfl, ?_, ?_, ?_⟩
        · simp
        · intro j hj
          simp only [List.length_cons, List.length_nil] at hj
          have hj0 : j = 0 := by omega
          subst hj0
          simp only [Nat.add_zero, List.get?_eq_getElem?]
          rw [List.getElem?_set_self (by omega)]
          simp
        · intro i hi
          simp only [List.length_cons, List.length_nil] at hi
          simp only [List.get?_eq_getElem?]
          rw [List.getElem?_set_ne (by omega)]
      · rw [if_neg hbreak]
        unfold MAX_NETWORK_DEVICES at hbreak
        have hrest1 : rest = [] ∨ (ls ≠ [] ∧ di + 1 + ls.length = MAX_NETWORK_DEVICES) := by
          rcases hrest with h | h
          · exact Or.inl h
          · right
            have h2 := h.2
            simp only [List.length_cons] at h2
            unfold MAX_NETWORK_DEVICES at h2 ⊢
            refine ⟨?_, by omega⟩
            intro e
            rw [e] at h2
            simp at h2
            omega
        have hfuel1 : (ls.flatten ++ rest).length < fuel := by
          simp only [List.flatten_cons, List.append_assoc, List.length_append] at hfuel ⊢
          omega
        obtain ⟨g1, e1, e2, e3, e4, e5, e6, e7⟩ := ih fuel (di + 1) rest
          { g with network_info := { g.network_info with
              devices := g.network_info.devices.set di (network_device_of (space_fields l)) } }
          (fun x hx => hdev x (List.mem_cons_of_mem l hx))
          (by simp only [List.length_set]; unfold MAX_NETWORK_DEVICES; exact hg)
          (by unfold MAX_NETWORK_DEVICES; omega) hrest1 hfuel1
        simp only [List.length_set] at e5
        refine ⟨g1, ?_, e2, e3, e4, e5, ?_, ?_⟩
        · rw [e1]
          simp only [List.length_cons]
          congr 2
          omega
        · intro j hj
          simp only [List.length_cons] at hj
          cases j with
          | zero =>
            rw [Nat.add_zero, e7 di (Or.inl (Nat.lt_succ_self di))]
            simp only [List.get?_eq_getElem?]
            rw [List.getElem?_set_self (by omega)]
            simp
          | succ j =>
            have e : di + (j + 1) = di + 1 + j := by omega
            rw [e, e6 j (by omega)]
            simp
        · intro i hi
          simp only [List.length_cons] at hi
          rw [e7 i (by omega)]
          simp only [List.get?_eq_getElem?]
          rw [List.getElem?_set_ne (by omega)]

theorem update_network_info_start (h1 h2 : string_t) (devs : List string_t) (rest : string_t)
    (g : globals) (hh1 : text_line h1) (hh2 : text_line h2)
    (hdev : ∀ l ∈ devs, text_line l ∧ device_line l)
    (hg : g.network_info.devices.length = MAX_NETWORK_DEVICES)
    (hcap : devs.length ≤ MAX_NETWORK_DEVICES)
    (hrest : rest = [] ∨ devs.length = MAX_NETWORK_DEVICES) :
    ∃ g1 : globals, update_network_info (h1 ++ h2 ++ (devs.flatten ++ rest)) g
            = .ok { g1 with network_info := { g1.network_info with
                num_devices := devs.length } }
      ∧ g1.cpu_stats = g.cpu_stats ∧ g1.mem_info = g.mem_info
      ∧ (∀ j, j < devs.length →
          g1.network_info.devices.get? j
            = (devs.get? j).map (fun l => network_device_of (space_fields l)))
      ∧ (∀ i, devs.length ≤ i →
          g1.network_info.devices.get? i = g.network_info.devices.get? i) := by
  have p1 := text_line_length_pos h1 hh1
  have p2 := text_line_length_pos h2 hh2
  have hrest1 : rest = [] ∨ (devs ≠ [] ∧ 0 + devs.length = MAX_NETWORK_DEVICES) := by
    rcases hrest with h | h
    · exact Or.inl h
    · right
      refine ⟨?_, by omega⟩
      intro e
      rw [e] at h
      exact absurd h (by decide)
  obtain ⟨fuel, hfuel⟩ :
      ∃ fuel, (h1 ++ h2 ++ (devs.flatten ++ rest)).length + 1 = fuel + 1 + 1 + 1 := by
    refine ⟨(h1 ++ h2 ++ (devs.flatten ++ rest)).length - 2, ?_⟩
    simp only [List.length_append]
    omega
  have hfuel2 : (devs.flatten ++ rest).length < fuel + 1 := by
    simp only [List.length_append] at hfuel ⊢
    omega
  obtain ⟨g1, e1, e2, e3, _, _, e6, e7⟩ :=
    update_network_info_loop_devices devs (fuel + 1) 0 rest g hdev hg (by omega) hrest1 hfuel2
  rw [Nat.zero_add] at e1
  refine ⟨g1, ?_, e2, e3, ?_, ?_⟩
  · unfold update_network_info
    rw [hfuel, List.append_assoc, update_network_info_loop_header _ h1 _ 0 0 g hh1 (by decide),
      update_network_info_loop_header _ h2 _ 1 0 g hh2 (by decide), e1]
  · intro j hj
    have h := e6 j hj
    rw [Nat.zero_add] at h
    exact h
  · intro i hi
    exact e7 i (Or.inr (by rw [Nat.zero_add]; exact hi))

/-! ## Claim C2 -/

/-- Claim C2. For every network source made of two header lines of any content
followed by `k` lines (each line ended by its line feed and fitting the line
buffer, the first eight of the `k` being device lines), `update_network_info`
succeeds, sets `num_devices` to `min k 8`, fills rows `0 .. min k 8 - 1` from
the device lines in input order, and stores nothing else: the rows from
`min k 8` on and the other two records are unchanged, whatever the lines after
the eighth contain. -/
theorem update_network_info_rows (h1 h2 : string_t) (lines : List string_t) (g : globals)
    (hh1 : text_line h1) (hh2 : text_line h2)
    (hdev : ∀ l ∈ lines.take MAX_NETWORK_DEVICES, text_line l ∧ device_line l)
    (hg : g.network_info.devices.length = MAX_NETWORK_DEVICES) :
    ∃ g1, update_network_info (h1 ++ h2 ++ lines.flatten) g = .ok g1
      ∧ g1.network_info.num_devices = min lines.length MAX_NETWORK_DEVICES
      ∧ (∀ i, i < min lines.length MAX_NETWORK_DEVICES →
          g1.network_info.devices.get? i
            = (lines.get? i).map (fun l => network_device_of (space_fields l)))
      ∧ (∀ i, min lines.length MAX_NETWORK_DEVICES ≤ i →
          g1.network_info.devices.get? i = g.network_info.devices.get? i)
      ∧ g1.cpu_stats = g.cpu_stats ∧ g1.mem_info = g.mem_info := by
  have hsplit : lines.flatten
      = (lines.take MAX_NETWORK_DEVICES).flatten ++ (lines.drop MAX_NETWORK_DEVICES).flatten := by
    rw [← List.flatten_append, List.take_append_drop]
  have hlen : (lines.take MAX_NETWORK_DEVICES).length = min lines.length MAX_NETWORK_DEVICES := by
    rw [List.length_take, Nat.min_comm]
  have hrest : (lines.drop MAX_NETWORK_DEVICES).flatten = []
      ∨ (lines.take MAX_NETWORK_DEVICES).length = MAX_NETWORK_DEVICES := by
    by_cases hk : lines.length ≤ MAX_NETWORK_DEVICES
    · left
      rw [List.drop_of_length_le hk]
      rfl
    · right
      rw [hlen]
      omega
  obtain ⟨g1, e1, e2, e3, e4, e5⟩ :=
    update_network_info_start h1 h2 (lines.take MAX_NETWORK_DEVICES)
      (lines.drop MAX_NETWORK_DEVICES).flatten g hh1 hh2 hdev hg
      (by rw [hlen]; exact Nat.min_le_right _ _) hrest
  rw [← hsplit, hlen] at e1
  rw [hlen] at e4 e5
  refine ⟨_, e1, rfl, ?_, e5, e2, e3⟩
  intro i hi
  simp only
  rw [e4 i hi]
  simp only [List.get?_eq_getElem?]
  rw [List.getElem?_take]
  simp only [Nat.lt_min] at hi
  simp [hi.2]

theorem update_network_info_rows_witness :
    ∃ g1, update_network_info
        ("Inter-| Receive | Transmit\n".toList ++ " face |bytes packets\n".toList
          ++ (List.replicate 9
                "  lo: 1 2 3 4 5 6 7 8 9 10 11 12 13 14 15 16\n".toList).flatten) blank_globals
        = .ok g1
      ∧ g1.network_info.num_devices
          = min (List.replicate 9
              "  lo: 1 2 3 4 5 6 7 8 9 10 11 12 13 14 15 16\n".toList).length MAX_NETWORK_DEVICES
      ∧ (∀ i, i < min (List.replicate 9
              "  lo: 1 2 3 4 5 6 7 8 9 10 11 12 13 14 15 16\n".toList).length MAX_NETWORK_DEVICES →
          g1.network_info.devices.get? i
            = ((List.replicate 9
                "  lo: 1 2 3 4 5 6 7 8 9 10 11 12 13 14 15 16\n".toList).get? i).map
                (fun l => network_device_of (space_fields l)))
      ∧ (∀ i, min (List.replicate 9
              "  lo: 1 2 3 4 5 6 7 8 9 10 11 12 13 14 15 16\n".toList).length MAX_NETWORK_DEVICES ≤ i →
          g1.network_info.devices.get? i = blank_globals.network_info.devices.get? i)
      ∧ g1.cpu_stats = blank_globals.cpu_stats ∧ g1.mem_info = blank_globals.mem_info :=
  update_network_info_rows "Inter-| Receive | Transmit\n".toList " face |bytes packets\n".toList
    (List.replicate 9 "  lo: 1 2 3 4 5 6 7 8 9 10 11 12 13 14 15 16\n".toList) blank_globals
    (by decide) (by decide) (by decide) (by decide)

/-! ## Claim C10 -/

/-- Claim C10, as stated, fails: on two header lines followed by the device
line `lo: 1 2 ... 16` the table has one entry, but its `t_errs` is `11`, the
eleventh counter token, while the twelfth counter token is `12`. -/
theorem t_errs_not_twelfth_counter :
    ∃ g1, update_network_info
        "Inter-| Receive\n face |bytes\n  lo: 1 2 3 4 5 6 7 8 9 10 11 12 13 14 15 16\n".toList
        blank_globals = .ok g1
      ∧ g1.network_info.num_devices = 1
      ∧ (g1.network_info.devices.get? 0).map (fun d => d.t_errs) = some "11".toList
      ∧ (space_fields "  lo: 1 2 3 4 5 6 7 8 9 10 11 12 13 14 15 16\n".toList).get? 12
          = some "12".toList
      ∧ (g1.network_info.devices.get? 0).map (fun d => d.t_errs)
          ≠ (space_fields "  lo: 1 2 3 4 5 6 7 8 9 10 11 12 13 14 15 16\n".toList).get? 12 := by
  refine ⟨_, rfl, ?_, ?_, ?_, ?_⟩ <;> decide

/-- Claim C10, amended. For every network source with two header lines
followed by one device line holding an interface name and 16 counter tokens,
`update_network_info` yields a table with exactly 1 entry whose `t_errs`
equals the 11th counter token of the line (the 12th token counting the
interface name): the receive block takes the first 8 counter tokens and
`t_errs` is the 3rd transmit field. -/
theorem t_errs_eleventh_counter (h1 h2 line face : string_t) (counters : List string_t)
    (g : globals)
    (hh1 : text_line h1) (hh2 : text_line h2) (hline : text_line line)
    (hfields : space_fields line = face :: counters)
    (hcount : counters.length = 16)
    (hfit : ∀ t ∈ (face :: counters).take 16, t.length < MAX_NETWORK_DATA_SIZE)
    (hg : g.network_info.devices.length = MAX_NETWORK_DEVICES) :
    ∃ g1, update_network_info (h1 ++ h2 ++ line) g = .ok g1
      ∧ g1.network_info.num_devices = 1
      ∧ (g1.network_info.devices.get? 0).map (fun d => d.t_errs) = counters.get? 10
      ∧ counters.get? 10 ≠ none := by
  have hdev : ∀ l ∈ [line], text_line l ∧ device_line l := by
    intro l hl
    have e : l = line := by simpa using hl
    subst e
    refine ⟨hline, ?_, ?_⟩
    · rw [hfields]; simp [hcount]
    · rw [hfields]; exact hfit
  obtain ⟨g1, e1, _, _, e4, _⟩ :=
    update_network_info_start h1 h2 [line] [] g hh1 hh2 hdev hg
      (by simp [MAX_NETWORK_DEVICES]) (Or.inl rfl)
  have e0 := e4 0 (by simp)
  simp only [List.flatten_cons, List.flatten_nil, List.append_nil] at e1
  refine ⟨_, e1, rfl, ?_, ?_⟩
  · simp only
    rw [e0]
    simp only [List.get?_cons_zero, Option.map_some', network_device_of, hfields,
      List.getD_cons_succ]
    rcases counters with _ | ⟨c1, _ | ⟨c2, _ | ⟨c3, _ | ⟨c4, _ | ⟨c5, _ | ⟨c6, _ | ⟨c7, _ | ⟨c8,
      _ | ⟨c9, _ | ⟨c10, _ | ⟨c11, rest⟩⟩⟩⟩⟩⟩⟩⟩⟩⟩⟩ <;> simp at hcount
    simp
  · intro hn
    simp only [List.get?_eq_getElem?] at hn
    rw [List.getElem?_eq_none_iff] at hn
    omega

theorem t_errs_eleventh_counter_witness :
    ∃ g1, update_network_info
        ("Inter-| Receive\n".toList ++ " face |bytes\n".toList
          ++ "eth0: 1 2 3 4 5 6 7 8 9 10 11 12 13 14 15 16\n".toList) blank_globals = .ok g1
      ∧ g1.network_info.num_devices = 1
      ∧ (g1.network_info.devices.get? 0).map (fun d => d.t_errs)
          = ["1".toList, "2".toList, "3".toList, "4".toList, "5".toList, "6".toList,
              "7".toList, "8".toList, "9".toList, "10".toList, "11".toList, "12".toList,
              "13".toList, "14".toList, "15".toList, "16\n".toList].get? 10
      ∧ ["1".toList, "2".toList, "3".toList, "4".toList, "5".toList, "6".toList,
          "7".toList, "8".toList, "9".toList, "10".toList, "11".toList, "12".toList,
          "13".toList, "14".toList, "15".toList, "16\n".toList].get? 10 ≠ none :=
  t_errs_eleventh_counter "Inter-| Receive\n".toList " face |bytes\n".toList
    "eth0: 1 2 3 4 5 6 7 8 9 10 11 12 13 14 15 16\n".toList "eth0:".toList
    ["1".toList, "2".toList, "3".toList, "4".toList, "5".toList, "6".toList,
      "7".toList, "8".toList, "9".toList, "10".toList, "11".toList, "12".toList,
      "13".toList, "14".toList, "15".toList, "16\n".toList] blank_globals
    (by decide) (by decide) (by decide) (by decide) (by decide) (by decide) (by decide)

/-! ## Claim C4 -/

theorem strtok_intr_first (x : string_t) :
    strtok ("intr ".toList ++ x) = (some "intr".toList, x) := by
  rfl

theorem tokens_from_line_intr_first (x : string_t) (token_list : token_array) :
    tokens_from_line token_list (some ("intr ".toList ++ x)) = .ok none := by
  rfl

theorem update_cpu_stats_line_intr_first (x : string_t) (g : globals) :
    update_cpu_stats_line ("intr ".toList ++ x) g = .ok g := by
  unfold update_cpu_stats_line
  rw [tokens_from_line_intr_first]

theorem long_intr_head_length : long_intr_head.length = MAX_PROCFILE_LINE_LENGTH - 1 := by
  unfold long_intr_head
  rw [List.length_append, List.length_flatten, List.map_replicate, List.sum_replicate]
  rfl

theorem long_intr_head_no_line_feed : LF ∉ long_intr_head := by
  unfold long_intr_head
  simp only [List.mem_append, List.mem_flatten, List.mem_replicate, not_or, not_exists, not_and]
  refine ⟨by decide, ?_⟩
  intro l hl
  rw [hl.2]
  decide

/-- An `intr` line that fits the read buffer is discarded. For every line whose
first space-delimited field is the ignore marker `intr`, with any trailing
tokens, `tokens_from_line` returns no key (NULL) and the loop body of
`update_cpu_stats` leaves the whole store (all three records) unchanged; when
the line is read whole from a source (it is shorter than the 8192-byte
buffer), sampling the source gives the same result as sampling what follows
the line. -/
theorem intr_line_discarded (line : string_t) (ignored : List string_t) (g : globals)
    (token_list : token_array)
    (hline : space_fields line = "intr".toList :: ignored) :
    tokens_from_line token_list (some line) = .ok none
      ∧ update_cpu_stats_line line g = .ok g
      ∧ (text_line line →
          ∀ rest, update_cpu_stats (line ++ rest) g = update_cpu_stats rest g) := by
  refine ⟨?_, update_cpu_stats_line_intr line ignored g hline, ?_⟩
  · have htok := tokens_from_line_fields line _ ignored token_list hline
    rw [if_pos rfl] at htok
    exact htok
  · intro htext rest
    rw [update_cpu_stats_cons line rest g htext, update_cpu_stats_line_intr line ignored g hline]

theorem intr_line_discarded_witness :
    tokens_from_line fresh_token_list
        (some "intr 9 8 7 6 5 4 3 2 1 0 1 2 3 4 5 6 7 8 9\n".toList) = .ok none
      ∧ update_cpu_stats_line "intr 9 8 7 6 5 4 3 2 1 0 1 2 3 4 5 6 7 8 9\n".toList blank_globals
          = .ok blank_globals
      ∧ update_cpu_stats
            ("intr 9 8 7 6 5 4 3 2 1 0 1 2 3 4 5 6 7 8 9\n".toList ++ "ctxt 5\n".toList)
            blank_globals
          = update_cpu_stats "ctxt 5\n".toList blank_globals :=
  have h := intr_line_discarded "intr 9 8 7 6 5 4 3 2 1 0 1 2 3 4 5 6 7 8 9\n".toList
    ["9".toList, "8".toList, "7".toList, "6".toList, "5".toList, "4".toList, "3".toList,
      "2".toList, "1".toList, "0".toList, "1".toList, "2".toList, "3".toList, "4".toList,
      "5".toList, "6".toList, "7".toList, "8".toList, "9\n".toList]
    blank_globals fresh_token_list (by decide)
  ⟨h.1, h.2.1, h.2.2 (by decide) "ctxt 5\n".toList⟩

/-- A line with first token `intr` that is longer than the read buffer is cut
by `fgets` after 8191 characters: the first part is discarded, and what is
left of the line is sampled as a line of its own. -/
theorem update_cpu_stats_long_intr (pad rest : string_t) (g : globals)
    (hlen : ("intr ".toList ++ pad).length = MAX_PROCFILE_LINE_LENGTH - 1)
    (hlf : LF ∉ pad) :
    update_cpu_stats ("intr ".toList ++ pad ++ rest) g = update_cpu_stats rest g := by
  have hlf2 : LF ∉ "intr ".toList ++ pad := by
    simp only [List.mem_append, not_or]
    exact ⟨by decide, hlf⟩
  rw [update_cpu_stats_full_buffer _ rest g hlen hlf2, update_cpu_stats_line_intr_first]

/-- Claim C4 is not met by the code. `long_intr_line` is one line of 8219
characters (its only line feed is its last character): the key `intr` and
4107 counters `0`. `tokens_from_line` called on the whole line returns no key,
but `update_cpu_stats` reads lines with `fgets` into a buffer of 8192 bytes:
the first 8191 characters are discarded, and the 28 characters left of the
same line are tokenized as a line of their own, key `0` with 13 tokens after
it, which writes past the 12 slots of `token_list`. `long_intr_line_cpu` is one
line with first token `intr` whose characters from position 8191 on read
`cpu 1 2 3 4 5 6 7 8 9 10`: sampling it stores these tokens in row 0 of the
CPU table, so the line changes the output records. -/
theorem long_intr_line_not_discarded :
    (long_intr_line.length = 8219
        ∧ long_intr_line.getLast? = some LF ∧ LF ∉ long_intr_line.dropLast)
      ∧ tokens_from_line fresh_token_list (some long_intr_line) = .ok none
      ∧ update_cpu_stats long_intr_line blank_globals = .error .out_of_bounds
      ∧ (long_intr_line_cpu.length = 8216
        ∧ long_intr_line_cpu.getLast? = some LF ∧ LF ∉ long_intr_line_cpu.dropLast)
      ∧ tokens_from_line fresh_token_list (some long_intr_line_cpu) = .ok none
      ∧ update_cpu_stats long_intr_line_cpu blank_globals
          = .ok { blank_globals with cpu_stats := { blank_globals.cpu_stats with
              cpu := blank_globals.cpu_stats.cpu.set 0
                { name := "cpu".toList, user_mode := "1".toList, nice_time := "2".toList,
                  system_mode_time := "3".toList, idle_time := "4".toList,
                  I_O_wait_time := "5".toList, IRQ_time := "6".toList,
                  soft_IRQ_time := "7".toList, steal_time := "8".toList,
                  guest_time := "9".toList, guest_nice_time := "10\n".toList } } }
      ∧ update_cpu_stats long_intr_line_cpu blank_globals ≠ .ok blank_globals := by
  have hlen := long_intr_head_length
  have hlf := long_intr_head_no_line_feed
  have h8 : MAX_PROCFILE_LINE_LENGTH - 1 = 8191 := by decide
  have hrun : ∀ tail : string_t,
      update_cpu_stats (long_intr_head ++ tail) blank_globals
        = update_cpu_stats tail blank_globals :=
    fun tail => update_cpu_stats_long_intr _ tail blank_globals hlen
      (fun h => hlf (List.mem_append_right _ h))
  have hshape : ∀ tail : string_t, tail ≠ [] → LF ∉ tail.dropLast →
      LF ∉ (long_intr_head ++ tail).dropLast := by
    intro tail hne hno
    rw [List.dropLast_append_of_ne_nil _ hne]
    simp only [List.mem_append, not_or]
    exact ⟨hlf, hno⟩
  have hkey : ∀ tail : string_t,
      tokens_from_line fresh_token_list (some (long_intr_head ++ tail)) = .ok none := by
    intro tail
    unfold long_intr_head
    rw [List.append_assoc]
    exact tokens_from_line_intr_first _ _
  refine ⟨⟨?_, ?_, ?_⟩, ?_, ?_, ⟨?_, ?_, ?_⟩, ?_, ?_, ?_⟩
  · unfold long_intr_line
    rw [List.length_append, hlen, h8]
    rfl
  · unfold long_intr_line
    rw [List.getLast?_append_of_ne_nil _ (by decide)]
    decide
  · exact hshape _ (by decide) (by decide)
  · exact hkey _
  · unfold long_intr_line
    rw [hrun]
    decide
  · unfold long_intr_line_cpu
    rw [List.length_append, hlen, h8]
    rfl
  · unfold long_intr_line_cpu
    rw [List.getLast?_append_of_ne_nil _ (by decide)]
    decide
  · exact hshape _ (by decide) (by decide)
  · exact hkey _
  · unfold long_intr_line_cpu
    rw [hrun]
    decide
  · unfold long_intr_line_cpu
    rw [hrun]
    decide

/-! ## Claim C5 -/

/-- Claim C5. For every well-formed line (at most 12 trailing tokens; when the
table claims the key, at least the tokens its target consumes, each fitting
its field), the loop body of `update_cpu_stats` equals one lookup in
`cpu_schema`: a key found there writes exactly its one target (row 0 for
`cpu`, row `K + 1` for `cpuK` from the ten trailing tokens, a scalar from the
one trailing token), and any other key leaves the store unchanged. The keys
of the table are pairwise distinct. -/
theorem cpu_dispatch_is_lookup (line key : string_t) (tokens : List string_t) (g : globals)
    (hline : space_fields line = key :: tokens)
    (hmax : tokens.length ≤ MAX_PROCFILE_TOKEN_AMOUNT)
    (hneed : ∀ t, cpu_schema_lookup key = some t →
      cpu_target_tokens t ≤ tokens.length
        ∧ ∀ x ∈ tokens.take (cpu_target_tokens t), x.length < MAX_CPU_DATA_SIZE)
    (hrows : g.cpu_stats.cpu.length = NUM_CPU_LINES) :
    update_cpu_stats_line line g
        = .ok (match cpu_schema_lookup key with
            | none => g
            | some t => { g with cpu_stats := cpu_target_write t key tokens g.cpu_stats })
      ∧ (cpu_schema.map (fun e => e.1)).Nodup := by
  refine ⟨?_, cpu_schema_nodup⟩
  by_cases hk : key = "intr".toList
  · subst hk
    rw [update_cpu_stats_line_intr line tokens g hline]
    rfl
  · cases hl : cpu_schema_lookup key with
    | none =>
      rw [update_cpu_stats_line_fields line key tokens g hline hk hmax,
        update_cpu_stats_dispatch_lookup, hl]
    | some t =>
      obtain ⟨h1, h2⟩ := hneed t hl
      have hk : key ≠ "intr".toList := by
        intro e
        have hn : cpu_schema_lookup "intr".toList = none := by decide
        rw [e, hn] at hl
        cases hl
      rw [update_cpu_stats_line_fields line key tokens g hline hk hmax,
        update_cpu_stats_dispatch_lookup, hl]
      obtain ⟨h3, h4⟩ := cpu_schema_facts _ (cpu_schema_lookup_mem key t hl)
      have hlen : tokens.length ≤ (fresh_token_list.set 0 (some key)).length := by
        simpa [fresh_token_list] using hmax
      exact cpu_target_run_ok t key tokens _ g
        (fun k hk => read_token_put_tokens tokens _ k hlen hk) h1 h2 h3 h4 hrows

theorem cpu_dispatch_is_lookup_witness :
    update_cpu_stats_line "procs_running 3\n".toList blank_globals
        = .ok (match cpu_schema_lookup "procs_running".toList with
            | none => blank_globals
            | some t => { blank_globals with
                cpu_stats := cpu_target_write t "procs_running".toList ["3\n".toList]
                  blank_globals.cpu_stats })
      ∧ (cpu_schema.map (fun e => e.1)).Nodup :=
  cpu_dispatch_is_lookup "procs_running 3\n".toList "procs_running".toList ["3\n".toList]
    blank_globals (by decide) (by decide)
    (fun t ht => by
      have e : cpu_schema_lookup "procs_running".toList = some .processes_running := by decide
      rw [e] at ht
      cases ht
      decide)
    (by decide)

/-! ## Claim C6 -/

/-- Claim C6 is not met by the code. The line `cpu 1 2 3` (three trailing
tokens where ten are needed) is not discarded: `update_cpu_index` copies the
three tokens and then hands the uninitialised `token_list[3]` to `strcpy`.
The final line `ctxt` with no trailing token is not discarded either: slot 0
of `token_list` still holds the key, which is copied into
`num_context_switches`. The guard `num_tokens < 1` never fires, since
`num_tokens` counts the key. -/
theorem short_cpu_line_not_discarded :
    update_cpu_stats "cpu 1 2 3\n".toList blank_globals = .error .uninit_read
      ∧ update_cpu_stats "ctxt".toList blank_globals
          = .ok { blank_globals with cpu_stats :=
              { blank_globals.cpu_stats with num_context_switches := "ctxt".toList } }
      ∧ update_cpu_stats "ctxt".toList blank_globals ≠ .ok blank_globals
      ∧ tokens_from_line fresh_token_list (some "ctxt".toList)
          = .ok (some ("ctxt".toList, fresh_token_list.set 0 (some "ctxt".toList), 1)) := by
  decide

/-! ## Claim C7 -/

/-- Claim C7, as stated, fails. The line `intr 1 2` has the space-delimited
fields `intr`, `1`, `2`, yet `tokens_from_line` returns NULL: no key and no
token list. And on the line `ctxt 12345` ended by a line feed the produced
token is `12345` with the line feed inside it: only the space is a delimiter. -/
theorem tokens_from_line_not_every_line :
    space_fields "intr 1 2".toList = ["intr".toList, "1".toList, "2".toList]
      ∧ tokens_from_line fresh_token_list (some "intr 1 2".toList) = .ok none
      ∧ tokens_from_line fresh_token_list (some "ctxt 12345\n".toList)
          = .ok (some ("ctxt".toList, fresh_token_list.set 0 (some "12345\n".toList), 2))
      ∧ LF ∈ "12345\n".toList := by
  refine ⟨by decide, by decide, by decide, by decide⟩

/-- Claim C7, amended. For every line whose first space-delimited field is not
the ignore marker `intr` and which has at most 12 fields after it,
`tokens_from_line` returns the first field as the key, stores the following
fields in left-to-right order in `token_list[0..]` and sets `num_tokens` to
their number plus one; no field is empty and none contains a space, however
many spaces separate two fields or precede the first. The delimiter is the
space character alone. -/
theorem tokens_from_line_space_fields (line key : string_t) (tokens : List string_t)
    (hline : space_fields line = key :: tokens)
    (hkey : key ≠ "intr".toList)
    (hmax : tokens.length ≤ MAX_PROCFILE_TOKEN_AMOUNT) :
    ∃ token_list,
      tokens_from_line fresh_token_list (some line)
          = .ok (some (key, token_list, tokens.length + 1))
        ∧ (∀ i, i < tokens.length → token_list.get? i = some (tokens.get? i))
        ∧ (∀ t ∈ key :: tokens, t ≠ [] ∧ SPACE ∉ t) := by
  have hlen : tokens.length ≤ fresh_token_list.length := by
    simpa [fresh_token_list] using hmax
  have htok := tokens_from_line_fields line key tokens fresh_token_list hline
  rw [if_neg hkey, if_pos (by decide), if_pos hlen] at htok
  refine ⟨_, htok, ?_, ?_⟩
  · intro i hi
    have h := put_tokens_get tokens (fresh_token_list.set 0 (some key)) 0 i
      (by simpa using hlen) hi
    rw [Nat.zero_add] at h
    exact h
  · intro t ht
    rw [← hline] at ht
    exact space_fields_props line.length line (Nat.le_refl _) t ht

theorem tokens_from_line_space_fields_witness :
    ∃ token_list,
      tokens_from_line fresh_token_list (some "   procs_blocked     0   1".toList)
          = .ok (some ("procs_blocked".toList, token_list, ["0".toList, "1".toList].length + 1))
        ∧ (∀ i, i < ["0".toList, "1".toList].length →
            token_list.get? i = some (["0".toList, "1".toList].get? i))
        ∧ (∀ t ∈ "procs_blocked".toList :: ["0".toList, "1".toList], t ≠ [] ∧ SPACE ∉ t) :=
  tokens_from_line_space_fields "   procs_blocked     0   1".toList "procs_blocked".toList
    ["0".toList, "1".toList] (by decide) (by decide) (by decide)

/-! ## Claim C8 -/

/-- Claim C8, as stated, fails. Sampling the two-line source leaves row 0 with
`guest_nice` equal to `100` followed by a line feed, and
`num_context_switches` equal to `12345` followed by a line feed: the line feed
that ends each line stays in the last token. -/
theorem cpu_sample_keeps_line_feed :
    ∃ g1, update_cpu_stats "cpu  10 20 30 40 50 60 70 80 90 100\nctxt 12345\n".toList
        blank_globals = .ok g1
      ∧ (g1.cpu_stats.cpu.get? 0).map (fun r => r.guest_nice_time) = some "100\n".toList
      ∧ (g1.cpu_stats.cpu.get? 0).map (fun r => r.guest_nice_time) ≠ some "100".toList
      ∧ g1.cpu_stats.num_context_switches = "12345\n".toList
      ∧ g1.cpu_stats.num_context_switches ≠ "12345".toList := by
  refine ⟨_, rfl, ?_, ?_, ?_, ?_⟩ <;> decide

/-- Claim C8, amended. Sampling the CPU source text
`cpu  10 20 30 40 50 60 70 80 90 100` / `ctxt 12345` (two lines, each ended by
a line feed) with `update_cpu_stats` leaves row 0 with name `cpu`, user `10`,
nice `20`, system `30`, idle `40`, iowait `50`, irq `60`, softirq `70`, steal
`80`, guest `90` and guest_nice `100` followed by the line feed, and
`num_context_switches` equal to `12345` followed by the line feed; nothing
else in the store changes. -/
theorem cpu_sample_scenario (g : globals) (hrows : g.cpu_stats.cpu.length = NUM_CPU_LINES) :
    update_cpu_stats "cpu  10 20 30 40 50 60 70 80 90 100\nctxt 12345\n".toList g
      = .ok { g with cpu_stats := { g.cpu_stats with
          cpu := g.cpu_stats.cpu.set 0
            { name := "cpu".toList, user_mode := "10".toList, nice_time := "20".toList,
              system_mode_time := "30".toList, idle_time := "40".toList,
              I_O_wait_time := "50".toList, IRQ_time := "60".toList,
              soft_IRQ_time := "70".toList, steal_time := "80".toList,
              guest_time := "90".toList, guest_nice_time := "100\n".toList },
          num_context_switches := "12345\n".toList } } := by
  have e : "cpu  10 20 30 40 50 60 70 80 90 100\nctxt 12345\n".toList
      = "cpu  10 20 30 40 50 60 70 80 90 100\n".toList ++ ("ctxt 12345\n".toList ++ []) := by
    decide
  have l1 := update_cpu_stats_line_write "cpu  10 20 30 40 50 60 70 80 90 100\n".toList
    "cpu".toList ["10".toList, "20".toList, "30".toList, "40".toList, "50".toList,
      "60".toList, "70".toList, "80".toList, "90".toList, "100\n".toList] g (.row 0)
    (by decide) (by decide) (by decide) (by decide) (by decide) hrows
  have l2 := update_cpu_stats_line_write "ctxt 12345\n".toList "ctxt".toList
    ["12345\n".toList]
    { g with cpu_stats := (cpu_target_write (.row 0) "cpu".toList
      (["10".toList, "20".toList, "30".toList, "40".toList, "50".toList,
        "60".toList, "70".toList, "80".toList, "90".toList, "100\n".toList]) g.cpu_stats) }
    .context_switches
    (by decide) (by decide) (by decide) (by decide) (by decide)
    (by simp only [cpu_target_write, List.length_set]; exact hrows)
  rw [e, update_cpu_stats_cons _ _ g (by decide), l1]
  simp only
  rw [update_cpu_stats_cons _ _ _ (by decide), l2]
  rfl

theorem cpu_sample_scenario_witness :
    update_cpu_stats "cpu  10 20 30 40 50 60 70 80 90 100\nctxt 12345\n".toList blank_globals
      = .ok { blank_globals with cpu_stats := { blank_globals.cpu_stats with
          cpu := blank_globals.cpu_stats.cpu.set 0
            { name := "cpu".toList, user_mode := "10".toList, nice_time := "20".toList,
              system_mode_time := "30".toList, idle_time := "40".toList,
              I_O_wait_time := "50".toList, IRQ_time := "60".toList,
              soft_IRQ_time := "70".toList, steal_time := "80".toList,
              guest_time := "90".toList, guest_nice_time := "100\n".toList },
          num_context_switches := "12345\n".toList } } :=
  cpu_sample_scenario blank_globals (by decide)

/-! ## Lemmas on the memory mapper -/

theorem mem_if_eq (e : string_t × mem_field) (key : string_t) (tl : token_array)
    (g : globals) :
    mem_if e.1 e.2 (some key) tl g
      = if key = e.1 then mem_field_copy e.2 tl g else .ok g := by
  by_cases h : key = e.1 <;> simp [mem_if, strcmp_eq, h]

theorem update_meminfo_dispatch_fold (key : string_t) (tl : token_array) (g : globals) :
    update_meminfo_dispatch (some key) tl g
      = mem_schema.foldlM (fun g e => mem_if e.1 e.2 (some key) tl g) g := by
  simp only [update_meminfo_dispatch, mem_schema, List.foldlM_cons, List.foldlM_nil, bind_pure]

theorem mem_schema_nodup : (mem_schema.map (fun e => e.1)).Nodup := by
  decide

theorem update_meminfo_dispatch_lookup (key : string_t) (tl : token_array) (g : globals) :
    update_meminfo_dispatch (some key) tl g
      = match mem_schema_lookup key with
        | none => .ok g
        | some f => mem_field_copy f tl g := by
  rw [update_meminfo_dispatch_fold,
    schema_fold_lookup key (fun e g => mem_if e.1 e.2 (some key) tl g)
      (fun f g => mem_field_copy f tl g) (fun e g => mem_if_eq e key tl g)
      mem_schema g mem_schema_nodup]
  unfold mem_schema_lookup
  cases (mem_schema.find? (fun e => decide (e.1 = key))).map (fun e => e.2) <;> rfl

theorem update_meminfo_line_fields (line key : string_t) (tokens : List string_t)
    (g : globals) (hline : space_fields line = key :: tokens) (hk : key ≠ "intr".toList)
    (hmax : tokens.length ≤ MAX_PROCFILE_TOKEN_AMOUNT) :
    update_meminfo_line line g
      = update_meminfo_dispatch (some key)
          (put_tokens (fresh_token_list.set 0 (some key)) 0 tokens) g := by
  have hlen : tokens.length ≤ fresh_token_list.length := by
    simpa [fresh_token_list] using hmax
  have htok := tokens_from_line_fields line key tokens fresh_token_list hline
  rw [if_neg hk, if_pos (by decide), if_pos hlen] at htok
  unfold update_meminfo_line
  rw [htok]

theorem update_meminfo_line_skip (line key : string_t) (tokens : List string_t)
    (g : globals) (hline : space_fields line = key :: tokens) (hk : key ≠ "intr".toList)
    (hmax : tokens.length ≤ MAX_PROCFILE_TOKEN_AMOUNT)
    (hl : mem_schema_lookup key = none) :
    update_meminfo_line line g = .ok g := by
  rw [update_meminfo_line_fields line key tokens g hline hk hmax,
    update_meminfo_dispatch_lookup, hl]

theorem update_meminfo_line_write (line key value : string_t) (tokens : List string_t)
    (g : globals) (f : mem_field)
    (hline : space_fields line = key :: value :: tokens)
    (hmax : tokens.length + 1 ≤ MAX_PROCFILE_TOKEN_AMOUNT)
    (hl : mem_schema_lookup key = some f)
    (hfit : value.length < MAX_MEM_DATA_SIZE) :
    update_meminfo_line line g
      = .ok { g with mem_info := mem_field_write f value g.mem_info } := by
  have hk : key ≠ "intr".toList := by
    intro e
    have hn : mem_schema_lookup "intr".toList = none := by decide
    rw [e, hn] at hl
    cases hl
  rw [update_meminfo_line_fields line key (value :: tokens) g hline hk
      (by simpa using hmax),
    update_meminfo_dispatch_lookup, hl]
  have hlen : (value :: tokens).length ≤ (fresh_token_list.set 0 (some key)).length := by
    simpa [fresh_token_list] using hmax
  have r0 := read_token_put_tokens (value :: tokens) (fresh_token_list.set 0 (some key)) 0
    hlen (by simp)
  simp only [List.get?_cons_zero] at r0
  simp [mem_field_copy, strcpy_token, r0, strcpy, hfit, bind, Except.bind]

theorem mem_field_read_write (f f0 : mem_field) (v : string_t) (m : mem_info) :
    mem_field_read f (mem_field_write f0 v m) = if f0 = f then v else mem_field_read f m := by
  cases f <;> cases f0 <;> rfl

theorem mem_source_line_effect (l : string_t) (g : globals) (h : mem_source_line l) :
    ∃ g1, update_meminfo_line l g = .ok g1
      ∧ g1.cpu_stats = g.cpu_stats ∧ g1.network_info = g.network_info
      ∧ ∀ f, mem_field_read f g1.mem_info
          = if mem_schema_lookup (line_key l) = some f then line_value l
            else mem_field_read f g.mem_info := by
  obtain ⟨_, hne, hk, hmax, hval⟩ := h
  unfold line_key at hk hval
  unfold line_value at hval
  unfold line_key line_value
  rcases hs : space_fields l with _ | ⟨key, tokens⟩
  · exact absurd hs hne
  · rw [hs] at hk hmax hval
    simp only [List.headD_cons, List.length_cons, Nat.add_le_add_iff_right] at hk hmax hval
    simp only [List.headD_cons]
    have hcases : mem_schema_lookup key = none ∨ ∃ f0, mem_schema_lookup key = some f0 := by
      cases mem_schema_lookup key with
      | none => exact Or.inl rfl
      | some f0 => exact Or.inr ⟨f0, rfl⟩
    rcases hcases with hl | ⟨f0, hl⟩
    · refine ⟨g, update_meminfo_line_skip l key tokens g hs hk hmax hl, rfl, rfl, ?_⟩
      intro f
      rw [if_neg (by rw [hl]; simp)]
    · obtain ⟨h2, hfit⟩ := hval (by rw [hl]; simp)
      rcases tokens with _ | ⟨value, rest⟩
      · simp at h2
      · simp only [List.getD_cons_succ, List.getD_cons_zero] at hfit ⊢
        simp only [List.length_cons] at hmax
        refine ⟨_, update_meminfo_line_write l key value rest g f0 hs hmax hl hfit,
          rfl, rfl, ?_⟩
        intro f
        rw [mem_field_read_write]
        by_cases hf : f0 = f
        · rw [if_pos hf, if_pos (by rw [hl, hf])]
        · rw [if_neg hf, if_neg (by rw [hl]; simpa using hf)]

theorem update_meminfo_flatten :
    ∀ (lines : List string_t) (g : globals), (∀ l ∈ lines, mem_source_line l) →
      ∃ g1, update_meminfo lines.flatten g = .ok g1
        ∧ g1.cpu_stats = g.cpu_stats ∧ g1.network_info = g.network_info
        ∧ ∀ f, mem_field_read f g1.mem_info
            = mem_field_after f (mem_field_read f g.mem_info) lines := by
  intro lines
  induction lines with
  | nil =>
    intro g _
    exact ⟨g, rfl, rfl, rfl, fun f => rfl⟩
  | cons l ls ih =>
    intro g h
    have hl := h l (List.mem_cons_self l ls)
    obtain ⟨g1, e1, e2, e3, e4⟩ := mem_source_line_effect l g hl
    obtain ⟨g2, d1, d2, d3, d4⟩ := ih g1 (fun x hx => h x (List.mem_cons_of_mem l hx))
    refine ⟨g2, ?_, d2.trans e2, d3.trans e3, ?_⟩
    · rw [List.flatten_cons, update_meminfo_cons l _ g hl.1, e1]
      exact d1
    · intro f
      rw [d4 f, e4 f]
      rfl

theorem mem_field_after_none (f : mem_field) (lines : List string_t) :
    ∀ v0, (∀ l ∈ lines, mem_schema_lookup (line_key l) ≠ some f) →
      mem_field_after f v0 lines = v0 := by
  induction lines with
  | nil => intro v0 _; rfl
  | cons l ls ih =>
    intro v0 h
    unfold mem_field_after
    rw [List.foldl_cons, if_neg (h l (List.mem_cons_self l ls))]
    exact ih v0 (fun x hx => h x (List.mem_cons_of_mem l hx))

theorem mem_field_after_last (f : mem_field) (pre post : List string_t) (l : string_t)
    (v0 : string_t) (hl : mem_schema_lookup (line_key l) = some f)
    (hpost : ∀ x ∈ post, mem_schema_lookup (line_key x) ≠ some f) :
    mem_field_after f v0 (pre ++ l :: post) = line_value l := by
  unfold mem_field_after
  rw [List.foldl_append, List.foldl_cons, if_pos hl]
  exact mem_field_after_none f post (line_value l) hpost

/-! ## Claim C3 -/

/-- Claim C3. For every memory source (lines read whole by `fgets`, each with
a key other than `intr`, at most 12 tokens after the key and, under a known
label, a value token that fits), `update_meminfo` succeeds and touches only
the memory record; a field whose label is the key of no line keeps its
pre-sample value, and a field whose label does occur holds the value token of
the last line carrying that label. -/
theorem meminfo_missing_label_kept (lines : List string_t) (g : globals)
    (hlines : ∀ l ∈ lines, mem_source_line l) :
    ∃ g1, update_meminfo lines.flatten g = .ok g1
      ∧ g1.cpu_stats = g.cpu_stats ∧ g1.network_info = g.network_info
      ∧ (∀ f, (∀ l ∈ lines, mem_schema_lookup (line_key l) ≠ some f) →
          mem_field_read f g1.mem_info = mem_field_read f g.mem_info)
      ∧ (∀ f pre l post, lines = pre ++ l :: post →
          mem_schema_lookup (line_key l) = some f →
          (∀ x ∈ post, mem_schema_lookup (line_key x) ≠ some f) →
          mem_field_read f g1.mem_info = line_value l) := by
  obtain ⟨g1, e1, e2, e3, e4⟩ := update_meminfo_flatten lines g hlines
  refine ⟨g1, e1, e2, e3, ?_, ?_⟩
  · intro f hf
    rw [e4 f, mem_field_after_none f lines _ hf]
  · intro f pre l post hsplit hl hpost
    rw [e4 f, hsplit, mem_field_after_last f pre post l _ hl hpost]

theorem meminfo_missing_label_kept_witness :
    ∃ g1, update_meminfo
        ["MemTotal:       16384000 kB\n".toList, "SwapCached:            0 kB\n".toList,
          "Dirty:               112 kB\n".toList, "HugePages_Total:       0\n".toList].flatten
        blank_globals = .ok g1
      ∧ mem_field_read .mem_free g1.mem_info = mem_field_read .mem_free blank_globals.mem_info
      ∧ mem_field_read .mem_total g1.mem_info = "16384000".toList
      ∧ mem_field_read .dirty g1.mem_info = "112".toList :=
  have h := meminfo_missing_label_kept
    ["MemTotal:       16384000 kB\n".toList, "SwapCached:            0 kB\n".toList,
      "Dirty:               112 kB\n".toList, "HugePages_Total:       0\n".toList]
    blank_globals (by decide)
  h.elim fun g1 hg =>
    ⟨g1, hg.1, hg.2.2.2.1 .mem_free (by decide),
      hg.2.2.2.2 .mem_total [] "MemTotal:       16384000 kB\n".toList
        ["SwapCached:            0 kB\n".toList, "Dirty:               112 kB\n".toList,
          "HugePages_Total:       0\n".toList] rfl (by decide) (by decide),
      hg.2.2.2.2 .dirty
        ["MemTotal:       16384000 kB\n".toList, "SwapCached:            0 kB\n".toList]
        "Dirty:               112 kB\n".toList ["HugePages_Total:       0\n".toList]
        rfl (by decide) (by decide)⟩

/-! ## Claim C9 -/

/-- Claim C9. For every memory source line made of a known label, a value
token and a unit token (the value fitting its field), the loop body of
`update_meminfo` stores exactly the value token in the label's field and
changes nothing else, so sampling a source that starts with the line
continues from that store; the unit token is dropped. In particular the
two-line source `MemTotal:  16384000 kB` / `MemFree:   2048000 kB` gives
`mem_total = 16384000` and `mem_free = 2048000` and leaves every other field
of the store as it was. -/
theorem meminfo_value_is_first_token (line label value unit rest : string_t) (f : mem_field)
    (g : globals)
    (htext : text_line line)
    (hline : space_fields line = [label, value, unit])
    (hlabel : mem_schema_lookup label = some f)
    (hfit : value.length < MAX_MEM_DATA_SIZE) :
    update_meminfo_line line g
        = .ok { g with mem_info := mem_field_write f value g.mem_info }
      ∧ update_meminfo (line ++ rest) g
          = update_meminfo rest { g with mem_info := mem_field_write f value g.mem_info }
      ∧ update_meminfo "MemTotal:  16384000 kB\nMemFree:   2048000 kB\n".toList g
          = .ok { g with mem_info := { g.mem_info with
              mem_total := "16384000".toList, mem_free := "2048000".toList } } := by
  have h1 := update_meminfo_line_write line label value [unit] g f hline
    (by simp [MAX_PROCFILE_TOKEN_AMOUNT]) hlabel hfit
  refine ⟨h1, ?_, ?_⟩
  · rw [update_meminfo_cons line rest g htext, h1]
  · have e : "MemTotal:  16384000 kB\nMemFree:   2048000 kB\n".toList
        = "MemTotal:  16384000 kB\n".toList ++ ("MemFree:   2048000 kB\n".toList ++ []) := by
      decide
    have l1 := update_meminfo_line_write "MemTotal:  16384000 kB\n".toList "MemTotal:".toList
      "16384000".toList ["kB\n".toList] g .mem_total (by decide) (by decide) (by decide)
      (by decide)
    have l2 := update_meminfo_line_write "MemFree:   2048000 kB\n".toList "MemFree:".toList
      "2048000".toList ["kB\n".toList]
      { g with mem_info := mem_field_write .mem_total "16384000".toList g.mem_info }
      .mem_free (by decide) (by decide) (by decide) (by decide)
    rw [e, update_meminfo_cons _ _ g (by decide), l1]
    simp only
    rw [update_meminfo_cons _ _ _ (by decide), l2]
    rfl

theorem meminfo_value_is_first_token_witness :
    update_meminfo_line "Cached:     123456 kB\n".toList blank_globals
        = .ok { blank_globals with
            mem_info := mem_field_write .cached "123456".toList blank_globals.mem_info }
      ∧ update_meminfo ("Cached:     123456 kB\n".toList ++ "Active: 7 kB\n".toList)
          blank_globals
          = update_meminfo "Active: 7 kB\n".toList { blank_globals with
              mem_info := mem_field_write .cached "123456".toList blank_globals.mem_info }
      ∧ update_meminfo "MemTotal:  16384000 kB\nMemFree:   2048000 kB\n".toList blank_globals
          = .ok { blank_globals with mem_info := { blank_globals.mem_info with
              mem_total := "16384000".toList, mem_free := "2048000".toList } } :=
  meminfo_value_is_first_token "Cached:     123456 kB\n".toList "Cached:".toList
    "123456".toList "kB\n".toList "Active: 7 kB\n".toList .cached blank_globals
    (by decide) (by decide) (by decide) (by decide)

/-! ## The entry points do not run out of fuel -/

theorem bind_ne_fuel {α β : Type} (x : Except Fault α) (f : α → Except Fault β)
    (hx : x ≠ .error .fuel) (hf : ∀ a, f a ≠ .error .fuel) :
    (x >>= f) ≠ .error .fuel := by
  cases x with
  | error e =>
    intro h
    apply hx
    simpa [bind, Except.bind] using h
  | ok a => exact hf a

theorem strcpy_ne_fuel (cap : Nat) (src : Option string_t) :
    strcpy cap src ≠ .error .fuel := by
  unfold strcpy
  split
  · simp
  · split <;> simp

theorem strcpy_token_ne_fuel (cap : Nat) (tl : token_array) (i : Nat) :
    strcpy_token cap tl i ≠ .error .fuel := by
  unfold strcpy_token
  apply bind_ne_fuel
  · unfold read_token
    split <;> simp
  · intro a
    exact strcpy_ne_fuel cap a

theorem update_cpu_index_ne_fuel (i : Nat) (key : string_t) (tl : token_array) (g : globals) :
    update_cpu_index i key tl g ≠ .error .fuel := by
  unfold update_cpu_index
  split
  · refine bind_ne_fuel _ _ (strcpy_ne_fuel _ _) (fun _ => ?_)
    refine bind_ne_fuel _ _ (strcpy_token_ne_fuel _ _ _) (fun _ => ?_)
    refine bind_ne_fuel _ _ (strcpy_token_ne_fuel _ _ _) (fun _ => ?_)
    refine bind_ne_fuel _ _ (strcpy_token_ne_fuel _ _ _) (fun _ => ?_)
    refine bind_ne_fuel _ _ (strcpy_token_ne_fuel _ _ _) (fun _ => ?_)
    refine bind_ne_fuel _ _ (strcpy_token_ne_fuel _ _ _) (fun _ => ?_)
    refine bind_ne_fuel _ _ (strcpy_token_ne_fuel _ _ _) (fun _ => ?_)
    refine bind_ne_fuel _ _ (strcpy_token_ne_fuel _ _ _) (fun _ => ?_)
    refine bind_ne_fuel _ _ (strcpy_token_ne_fuel _ _ _) (fun _ => ?_)
    refine bind_ne_fuel _ _ (strcpy_token_ne_fuel _ _ _) (fun _ => ?_)
    refine bind_ne_fuel _ _ (strcpy_token_ne_fuel _ _ _) (fun _ => ?_)
    simp [pure, Except.pure]
  · simp

theorem cpu_target_run_ne_fuel (t : cpu_target) (key : string_t) (tl : token_array)
    (g : globals) : cpu_target_run t key tl g ≠ .error .fuel := by
  cases t with
  | row i => exact update_cpu_index_ne_fuel i key tl g
  | _ =>
    simp only [cpu_target_run, cpu_scalar_if, if_true]
    apply bind_ne_fuel
    · exact strcpy_token_ne_fuel _ _ _
    · intro a
      simp [pure, Except.pure]

theorem update_cpu_stats_dispatch_ne_fuel (key : string_t) (tl : token_array) (g : globals) :
    update_cpu_stats_dispatch key tl g ≠ .error .fuel := by
  rw [update_cpu_stats_dispatch_lookup]
  split
  · simp
  · exact cpu_target_run_ne_fuel _ key tl g

theorem tokens_from_line_ne_fuel (tl : token_array) (line : string_t) :
    tokens_from_line tl (some line) ≠ .error .fuel := by
  cases hf : space_fields line with
  | nil =>
    rw [tokens_from_line_blank line tl hf]
    simp
  | cons key rest =>
    rw [tokens_from_line_fields line key rest tl hf]
    repeat' split
    all_goals simp

theorem update_cpu_stats_line_ne_fuel (line : string_t) (g : globals) :
    update_cpu_stats_line line g ≠ .error .fuel := by
  have h := tokens_from_line_ne_fuel fresh_token_list line
  unfold update_cpu_stats_line
  split
  · rename_i e he
    intro hc
    apply h
    rw [he]
    simpa using hc
  · simp
  · split
    · simp
    · exact update_cpu_stats_dispatch_ne_fuel _ _ g

theorem update_cpu_stats_ne_fuel (proc_stats_file : string_t) (g : globals) :
    update_cpu_stats proc_stats_file g ≠ .error .fuel := by
  have key : ∀ (n : Nat) (f : string_t) (g : globals), f.length < n →
      update_cpu_stats_loop n f g ≠ .error .fuel := by
    intro n
    induction n with
    | zero => intro f g h; omega
    | succ n ih =>
      intro f g hn
      unfold update_cpu_stats_loop
      cases hf : fgets MAX_PROCFILE_LINE_LENGTH f with
      | none => simp
      | some lr =>
        obtain ⟨l, r⟩ := lr
        have hr := fgets_rest_lt f l r hf
        simp only
        cases hb : update_cpu_stats_line l g with
        | error e =>
          have := update_cpu_stats_line_ne_fuel l g
          rw [hb] at this
          simpa using this
        | ok g1 => exact ih r g1 (by omega)
  exact key _ _ g (Nat.lt_succ_self _)

theorem mem_field_copy_ne_fuel (f : mem_field) (tl : token_array) (g : globals) :
    mem_field_copy f tl g ≠ .error .fuel := by
  have h := strcpy_token_ne_fuel MAX_MEM_DATA_SIZE tl 0
  unfold mem_field_copy
  split
  · rename_i e he
    intro hc
    apply h
    rw [he]
    simpa using hc
  · simp

theorem update_meminfo_line_ne_fuel (line : string_t) (g : globals) :
    update_meminfo_line line g ≠ .error .fuel := by
  have h := tokens_from_line_ne_fuel fresh_token_list line
  unfold update_meminfo_line
  split
  · rename_i e he
    intro hc
    apply h
    rw [he]
    simpa using hc
  · simp [update_meminfo_dispatch, mem_if, strcmp_eq, bind, Except.bind]
  · rename_i first_token token_list _ _
    rw [update_meminfo_dispatch_lookup]
    split
    · simp
    · exact mem_field_copy_ne_fuel _ _ g

theorem update_meminfo_ne_fuel (mem_info_file : string_t) (g : globals) :
    update_meminfo mem_info_file g ≠ .error .fuel := by
  have key : ∀ (n : Nat) (f : string_t) (g : globals), f.length < n →
      update_meminfo_loop n f g ≠ .error .fuel := by
    intro n
    induction n with
    | zero => intro f g h; omega
    | succ n ih =>
      intro f g hn
      unfold update_meminfo_loop
      cases hf : fgets MAX_PROCFILE_LINE_LENGTH f with
      | none => simp
      | some lr =>
        obtain ⟨l, r⟩ := lr
        have hr := fgets_rest_lt f l r hf
        simp only
        cases hb : update_meminfo_line l g with
        | error e =>
          have := update_meminfo_line_ne_fuel l g
          rw [hb] at this
          simpa using this
        | ok g1 => exact ih r g1 (by omega)
  exact key _ _ g (Nat.lt_succ_self _)

theorem copy_to_network_struct_ne_fuel (i : Nat) (line : string_t) (g : globals) :
    copy_to_network_struct i line g ≠ .error .fuel := by
  unfold copy_to_network_struct
  split
  · dsimp only
    refine bind_ne_fuel _ _ (strcpy_ne_fuel _ _) (fun _ => ?_)
    refine bind_ne_fuel _ _ (strcpy_ne_fuel _ _) (fun _ => ?_)
    refine bind_ne_fuel _ _ (strcpy_ne_fuel _ _) (fun _ => ?_)
    refine bind_ne_fuel _ _ (strcpy_ne_fuel _ _) (fun _ => ?_)
    refine bind_ne_fuel _ _ (strcpy_ne_fuel _ _) (fun _ => ?_)
    refine bind_ne_fuel _ _ (strcpy_ne_fuel _ _) (fun _ => ?_)
    refine bind_ne_fuel _ _ (strcpy_ne_fuel _ _) (fun _ => ?_)
    refine bind_ne_fuel _ _ (strcpy_ne_fuel _ _) (fun _ => ?_)
    refine bind_ne_fuel _ _ (strcpy_ne_fuel _ _) (fun _ => ?_)
    refine bind_ne_fuel _ _ (strcpy_ne_fuel _ _) (fun _ => ?_)
    refine bind_ne_fuel _ _ (strcpy_ne_fuel _ _) (fun _ => ?_)
    refine bind_ne_fuel _ _ (strcpy_ne_fuel _ _) (fun _ => ?_)
    refine bind_ne_fuel _ _ (strcpy_ne_fuel _ _) (fun _ => ?_)
    refine bind_ne_fuel _ _ (strcpy_ne_fuel _ _) (fun _ => ?_)
    refine bind_ne_fuel _ _ (strcpy_ne_fuel _ _) (fun _ => ?_)
    refine bind_ne_fuel _ _ (strcpy_ne_fuel _ _) (fun _ => ?_)
    simp [pure, Except.pure]
  · simp

theorem update_network_info_ne_fuel (network_activity_file : string_t) (g : globals) :
    update_network_info network_activity_file g ≠ .error .fuel := by
  have key : ∀ (n : Nat) (f : string_t) (li di : Nat) (g : globals), f.length < n →
      update_network_info_loop n f li di g ≠ .error .fuel := by
    intro n
    induction n with
    | zero => intro f li di g h; omega
    | succ n ih =>
      intro f li di g hn
      unfold update_network_info_loop
      cases hf : fgets MAX_PROCFILE_LINE_LENGTH f with
      | none => simp
      | some lr =>
        obtain ⟨l, r⟩ := lr
        have hr := fgets_rest_lt f l r hf
        simp only
        split
        · exact ih r _ _ g (by omega)
        · cases hb : copy_to_network_struct di l g with
          | error e =>
            have := copy_to_network_struct_ne_fuel di l g
            rw [hb] at this
            simpa using this
          | ok g1 =>
            simp only
            split
            · simp
            · exact ih r _ _ g1 (by omega)
  have h := key _ _ 0 0 g (Nat.lt_succ_self network_activity_file.length)
  unfold update_network_info
  split
  · rename_i e he
    intro hc
    apply h
    rw [he]
    simpa using hc
  · simp

/-! ## Claim C14 -/

theorem put_tokens_get_ge (ts : List string_t) :
    ∀ (tl : token_array) (i j : Nat), i + ts.length ≤ j →
      (put_tokens tl i ts).get? j = tl.get? j := by
  induction ts with
  | nil => intro tl i j _; rfl
  | cons t ts ih =>
    intro tl i j hj
    simp only [List.length_cons] at hj
    rw [put_tokens, ih _ _ _ (by omega)]
    simp only [List.get?_eq_getElem?]
    rw [List.getElem?_set_ne (by omega)]

theorem tokens_from_line_overflow (line key : string_t) (tokens : List string_t)
    (token_list : token_array)
    (hcap : token_list.length = MAX_PROCFILE_TOKEN_AMOUNT)
    (hline : space_fields line = key :: tokens)
    (hkey : key ≠ "intr".toList)
    (hmany : MAX_PROCFILE_TOKEN_AMOUNT < tokens.length) :
    tokens_from_line token_list (some line) = .error .out_of_bounds := by
  rw [tokens_from_line_fields line key tokens token_list hline, if_neg hkey,
    if_pos (by rw [hcap]; decide), if_neg (by rw [hcap]; omega)]

/-- Claim C14. For every line whose key is not `intr` and which has at most 12
tokens after the key, `tokens_from_line` called on the caller's 12-slot
`token_list` never writes out of range (the result is not the
`out_of_bounds` fault and the array keeps its 12 slots), stores the `i`-th
token after the key at index `i - 1`, leaves every slot from
`max 1 (number of tokens)` on as it was, and reports `num_tokens` equal to one
plus the number of tokens after the key. -/
theorem tokens_from_line_within_capacity (line key : string_t) (tokens : List string_t)
    (token_list : token_array)
    (hcap : token_list.length = MAX_PROCFILE_TOKEN_AMOUNT)
    (hline : space_fields line = key :: tokens)
    (hkey : key ≠ "intr".toList)
    (hmax : tokens.length ≤ MAX_PROCFILE_TOKEN_AMOUNT) :
    ∃ written,
      tokens_from_line token_list (some line)
          = .ok (some (key, written, tokens.length + 1))
        ∧ tokens_from_line token_list (some line) ≠ .error .out_of_bounds
        ∧ written.length = MAX_PROCFILE_TOKEN_AMOUNT
        ∧ (∀ i, 1 ≤ i → i ≤ tokens.length →
            written.get? (i - 1) = some (tokens.get? (i - 1)))
        ∧ (∀ j, max 1 tokens.length ≤ j → written.get? j = token_list.get? j) := by
  have hlen : tokens.length ≤ token_list.length := by rw [hcap]; exact hmax
  have htok := tokens_from_line_fields line key tokens token_list hline
  rw [if_neg hkey, if_pos (by rw [hcap]; decide), if_pos hlen] at htok
  refine ⟨_, htok, ?_, ?_, ?_, ?_⟩
  · rw [htok]
    simp
  · rw [put_tokens_length, List.length_set, hcap]
  · intro i h1 hi
    have h := put_tokens_get tokens (token_list.set 0 (some key)) 0 (i - 1)
      (by simpa using hlen) (by omega)
    rw [Nat.zero_add] at h
    exact h
  · intro j hj
    have hj1 : 1 ≤ j := le_trans (le_max_left _ _) hj
    have hj2 : tokens.length ≤ j := le_trans (le_max_right _ _) hj
    rw [put_tokens_get_ge tokens _ 0 j (by omega)]
    simp only [List.get?_eq_getElem?]
    rw [List.getElem?_set_ne (by omega)]

theorem tokens_from_line_within_capacity_witness :
    ∃ written,
      tokens_from_line fresh_token_list
          (some "softirq 1 2 3 4 5 6 7 8 9 10 11 12\n".toList)
          = .ok (some ("softirq".toList, written,
              ["1".toList, "2".toList, "3".toList, "4".toList, "5".toList, "6".toList,
                "7".toList, "8".toList, "9".toList, "10".toList, "11".toList,
                "12\n".toList].length + 1))
        ∧ tokens_from_line fresh_token_list
            (some "softirq 1 2 3 4 5 6 7 8 9 10 11 12\n".toList) ≠ .error .out_of_bounds
        ∧ written.length = MAX_PROCFILE_TOKEN_AMOUNT
        ∧ (∀ i, 1 ≤ i →
            i ≤ ["1".toList, "2".toList, "3".toList, "4".toList, "5".toList, "6".toList,
                "7".toList, "8".toList, "9".toList, "10".toList, "11".toList,
                "12\n".toList].length →
            written.get? (i - 1)
              = some (["1".toList, "2".toList, "3".toList, "4".toList, "5".toList, "6".toList,
                "7".toList, "8".toList, "9".toList, "10".toList, "11".toList,
                "12\n".toList].get? (i - 1)))
        ∧ (∀ j, max 1 ["1".toList, "2".toList, "3".toList, "4".toList, "5".toList,
                "6".toList, "7".toList, "8".toList, "9".toList, "10".toList, "11".toList,
                "12\n".toList].length ≤ j →
            written.get? j = fresh_token_list.get? j) :=
  tokens_from_line_within_capacity "softirq 1 2 3 4 5 6 7 8 9 10 11 12\n".toList
    "softirq".toList
    ["1".toList, "2".toList, "3".toList, "4".toList, "5".toList, "6".toList,
      "7".toList, "8".toList, "9".toList, "10".toList, "11".toList, "12\n".toList]
    fresh_token_list (by decide) (by decide) (by decide) (by decide)

/-! ## Lemmas on the renderers -/

theorem lines_printed_append (a b : string_t) :
    lines_printed (a ++ b) = lines_printed a + lines_printed b := by
  unfold lines_printed
  exact List.count_append LF a b

theorem lines_printed_pad_s (width : Nat) (s : string_t) :
    lines_printed (pad_s width s) = lines_printed s := by
  unfold lines_printed pad_s
  rw [List.count_append, List.count_replicate]
  have h : (SPACE == LF) = false := by decide
  simp [h]

theorem lines_printed_printf1 (pre post : String) (width : Nat) (s : string_t) :
    lines_printed (printf1 pre width s post)
      = lines_printed pre.toList + lines_printed s + lines_printed post.toList := by
  unfold printf1
  rw [lines_printed_append, lines_printed_append, lines_printed_pad_s]

theorem lines_printed_eq_zero (s : string_t) (h : LF ∉ s) : lines_printed s = 0 := by
  unfold lines_printed
  exact List.count_eq_zero.mpr h

set_option maxRecDepth 8000 in
theorem display_network_info_header_lines :
    lines_printed display_network_info_header = 4 := by
  decide

theorem display_network_info_row_lines (d : network_device) :
    lines_printed (display_network_info_row d)
      = 4 + ((network_device_fields d).map lines_printed).sum := by
  have h0 : lines_printed "".toList = 0 := by decide
  have h1 : lines_printed " |".toList = 0 := by decide
  have h2 : lines_printed " |\n".toList = 1 := by decide
  have h3 : lines_printed (printf0 "\n             |") = 1 := by decide
  have h4 : lines_printed
      (printf0 "-------------------------------------------------------------------") = 0 := by
    decide
  have h5 : lines_printed
      (printf0 "-------------------------------------------------------------------\n\n")
        = 2 := by
    decide
  simp only [display_network_info_row, lines_printed_append, lines_printed_printf1, h0, h1, h2,
    h3, h4, h5, network_device_fields, List.map_cons, List.map_nil, List.sum_cons, List.sum_nil]
  omega

theorem display_network_info_row_lines_plain (d : network_device)
    (h : ∀ s ∈ network_device_fields d, LF ∉ s) :
    lines_printed (display_network_info_row d) = 4 := by
  rw [display_network_info_row_lines]
  have hz : ((network_device_fields d).map lines_printed).sum = 0 := by
    apply List.sum_eq_zero
    intro x hx
    obtain ⟨s, hs, rfl⟩ := List.mem_map.mp hx
    exact lines_printed_eq_zero s (h s hs)
  rw [hz]

theorem display_network_info_loop_lines (devices : List network_device) :
    ∀ (count i : Nat) (out : string_t), i + count ≤ devices.length →
      (∀ j d, i ≤ j → j < i + count → devices.get? j = some d →
        ∀ s ∈ network_device_fields d, LF ∉ s) →
      ∃ res, display_network_info_loop devices count i out = .ok res
        ∧ lines_printed res = lines_printed out + 4 * count := by
  intro count
  induction count with
  | zero =>
    intro i out _ _
    exact ⟨out, rfl, by simp⟩
  | succ count ih =>
    intro i out hlen hlf
    have hi : i < devices.length := by omega
    have hget : devices.get? i = some (devices.get ⟨i, hi⟩) := List.get?_eq_get hi
    obtain ⟨res, e1, e2⟩ := ih (i + 1) (out ++ display_network_info_row (devices.get ⟨i, hi⟩))
      (by omega) (fun j d h1 h2 h3 => hlf j d (by omega) (by omega) h3)
    refine ⟨res, ?_, ?_⟩
    · rw [display_network_info_loop, hget]
      exact e1
    · rw [e2, lines_printed_append,
        display_network_info_row_lines_plain _
          (hlf i _ (Nat.le_refl i) (by omega) hget)]
      omega

theorem bind_eq_ok {α β : Type} (x : Except Fault α) (f : α → Except Fault β) (b : β)
    (h : (x >>= f) = .ok b) : ∃ a, x = .ok a ∧ f a = .ok b := by
  cases x with
  | error e => simp [bind, Except.bind] at h
  | ok a => exact ⟨a, rfl, h⟩

theorem copy_to_network_struct_shape (i : Nat) (line : string_t) (g g1 : globals)
    (h : copy_to_network_struct i line g = .ok g1) :
    g1.network_info.devices.length = g.network_info.devices.length := by
  unfold copy_to_network_struct at h
  split at h
  · dsimp only at h
    obtain ⟨_, _, h⟩ := bind_eq_ok _ _ _ h
    obtain ⟨_, _, h⟩ := bind_eq_ok _ _ _ h
    obtain ⟨_, _, h⟩ := bind_eq_ok _ _ _ h
    obtain ⟨_, _, h⟩ := bind_eq_ok _ _ _ h
    obtain ⟨_, _, h⟩ := bind_eq_ok _ _ _ h
    obtain ⟨_, _, h⟩ := bind_eq_ok _ _ _ h
    obtain ⟨_, _, h⟩ := bind_eq_ok _ _ _ h
    obtain ⟨_, _, h⟩ := bind_eq_ok _ _ _ h
    obtain ⟨_, _, h⟩ := bind_eq_ok _ _ _ h
    obtain ⟨_, _, h⟩ := bind_eq_ok _ _ _ h
    obtain ⟨_, _, h⟩ := bind_eq_ok _ _ _ h
    obtain ⟨_, _, h⟩ := bind_eq_ok _ _ _ h
    obtain ⟨_, _, h⟩ := bind_eq_ok _ _ _ h
    obtain ⟨_, _, h⟩ := bind_eq_ok _ _ _ h
    obtain ⟨_, _, h⟩ := bind_eq_ok _ _ _ h
    obtain ⟨_, _, h⟩ := bind_eq_ok _ _ _ h
    simp only [pure, Except.pure, Except.ok.injEq] at h
    subst h
    simp
  · simp at h

theorem update_network_info_loop_shape :
    ∀ (n : Nat) (f : string_t) (li di : Nat) (g : globals) (r : Nat) (g1 : globals),
      update_network_info_loop n f li di g = .ok (r, g1) →
      di < MAX_NETWORK_DEVICES →
      r ≤ MAX_NETWORK_DEVICES
        ∧ g1.network_info.devices.length = g.network_info.devices.length := by
  intro n
  induction n with
  | zero =>
    intro f li di g r g1 h _
    simp [update_network_info_loop] at h
  | succ n ih =>
    intro f li di g r g1 h hdi
    unfold update_network_info_loop at h
    cases hf : fgets MAX_PROCFILE_LINE_LENGTH f with
    | none =>
      rw [hf] at h
      simp only [Except.ok.injEq, Prod.mk.injEq] at h
      obtain ⟨h1, h2⟩ := h
      subst h1 h2
      exact ⟨Nat.le_of_lt hdi, rfl⟩
    | some lr =>
      obtain ⟨l, rest⟩ := lr
      rw [hf] at h
      simp only at h
      split at h
      · exact ih rest _ di g r g1 h hdi
      · cases hc : copy_to_network_struct di l g with
        | error e => rw [hc] at h; simp at h
        | ok g2 =>
          rw [hc] at h
          simp only at h
          have hshape := copy_to_network_struct_shape di l g g2 hc
          split at h
          · simp only [Except.ok.injEq, Prod.mk.injEq] at h
            obtain ⟨h1, h2⟩ := h
            subst h1 h2
            exact ⟨hdi, hshape⟩
          · rename_i hnb
            obtain ⟨e1, e2⟩ := ih rest _ (di + 1) g2 r g1 h (by omega)
            exact ⟨e1, e2.trans hshape⟩

theorem update_network_info_shape (file : string_t) (g g1 : globals)
    (h : update_network_info file g = .ok g1) :
    g1.network_info.num_devices ≤ MAX_NETWORK_DEVICES
      ∧ g1.network_info.devices.length = g.network_info.devices.length := by
  unfold update_network_info at h
  cases hl : update_network_info_loop (file.length + 1) file 0 0 g with
  | error e => rw [hl] at h; simp at h
  | ok rg =>
    obtain ⟨r, g2⟩ := rg
    rw [hl] at h
    simp only [Except.ok.injEq] at h
    subst h
    exact update_network_info_loop_shape _ file 0 0 g r g2 hl (by decide)

/-! ## Claim C11 -/

/-- Claim C11. In one pass of the network refresh loop, for every store `g1`
that `update_network_info` produces from a store with 8 device rows, the
populated count is at most 8, and when no stored field of a populated row
contains a line feed, `display_network_info` succeeds and the number of
cursor-up moves issued after the frame, `4 * num_devices + 4`, equals the
number of lines the frame put on the terminal. -/
theorem network_rewind_matches_frame (network_activity_file : string_t) (g g1 : globals)
    (hg : g.network_info.devices.length = MAX_NETWORK_DEVICES)
    (hsample : update_network_info network_activity_file g = .ok g1)
    (hlf : ∀ d ∈ g1.network_info.devices.take g1.network_info.num_devices,
      ∀ s ∈ network_device_fields d, LF ∉ s) :
    g1.network_info.num_devices ≤ MAX_NETWORK_DEVICES
      ∧ ∃ frame, display_network_info g1 = .ok frame
          ∧ network_info_loop_cycle network_activity_file g
              = .ok (frame, 4 * g1.network_info.num_devices + 4, g1)
          ∧ lines_printed frame = 4 * g1.network_info.num_devices + 4 := by
  obtain ⟨hn, hlen⟩ := update_network_info_shape network_activity_file g g1 hsample
  rw [hg] at hlen
  refine ⟨hn, ?_⟩
  obtain ⟨frame, e1, e2⟩ := display_network_info_loop_lines g1.network_info.devices
    g1.network_info.num_devices 0 display_network_info_header (by omega)
    (fun j d _ h2 h3 => hlf d (by
      rw [List.mem_iff_get?]
      refine ⟨j, ?_⟩
      simp only [List.get?_eq_getElem?] at h3 ⊢
      rw [List.getElem?_take]
      simp only [Nat.zero_add] at h2
      simp [h2, h3]))
  have e3 : display_network_info g1 = .ok frame := e1
  refine ⟨frame, e3, ?_, ?_⟩
  · unfold network_info_loop_cycle network_status
    rw [hsample]
    simp only
    rw [e3]
  · rw [e2, display_network_info_header_lines]
    omega

set_option maxRecDepth 20000 in
theorem network_rewind_matches_frame_witness :
    (2 : Nat) ≤ MAX_NETWORK_DEVICES
      ∧ ∃ frame, display_network_info
            { blank_globals with network_info :=
      { devices := (blank_globals.network_info.devices.set 0
            (network_device_of (space_fields "    lo: 100 2 0 0 0 0 0 0 100 2 0 0 0 0 0 0\n".toList))).set 1
            (network_device_of (space_fields "  eth0: 5000 40 1 2 0 0 0 7 900 30 0 0 0 0 0 0\n".toList)),
        num_devices := 2 } } = .ok frame
          ∧ network_info_loop_cycle
              "Inter-|   Receive    |  Transmit\n face |bytes packets errs drop\n    lo: 100 2 0 0 0 0 0 0 100 2 0 0 0 0 0 0\n  eth0: 5000 40 1 2 0 0 0 7 900 30 0 0 0 0 0 0\n".toList
              blank_globals
              = .ok (frame, 4 * 2 + 4,
                  { blank_globals with network_info :=
      { devices := (blank_globals.network_info.devices.set 0
            (network_device_of (space_fields "    lo: 100 2 0 0 0 0 0 0 100 2 0 0 0 0 0 0\n".toList))).set 1
            (network_device_of (space_fields "  eth0: 5000 40 1 2 0 0 0 7 900 30 0 0 0 0 0 0\n".toList)),
        num_devices := 2 } })
          ∧ lines_printed frame = 4 * 2 + 4 :=
  network_rewind_matches_frame
    "Inter-|   Receive    |  Transmit\n face |bytes packets errs drop\n    lo: 100 2 0 0 0 0 0 0 100 2 0 0 0 0 0 0\n  eth0: 5000 40 1 2 0 0 0 7 900 30 0 0 0 0 0 0\n".toList
    blank_globals
    { blank_globals with network_info :=
      { devices := (blank_globals.network_info.devices.set 0
            (network_device_of (space_fields "    lo: 100 2 0 0 0 0 0 0 100 2 0 0 0 0 0 0\n".toList))).set 1
            (network_device_of (space_fields "  eth0: 5000 40 1 2 0 0 0 7 900 30 0 0 0 0 0 0\n".toList)),
        num_devices := 2 } }
    (by decide) (by decide) (by decide)

/-! ## Claim C13 -/

theorem display_cpu_proc_row_lines (r : cpu_line) :
    lines_printed (display_cpu_proc_row r) = ((cpu_line_fields r).map lines_printed).sum := by
  have h0 : lines_printed "".toList = 0 := by decide
  have h1 : lines_printed " ".toList = 0 := by decide
  have h2 : lines_printed " | ".toList = 0 := by decide
  simp only [display_cpu_proc_row, lines_printed_append, lines_printed_printf1, h0, h1, h2,
    cpu_line_fields, List.map_cons, List.map_nil, List.sum_cons, List.sum_nil]
  omega

theorem display_cpu_proc_scalars_lines (g : globals) :
    lines_printed (display_cpu_proc_scalars g)
      = 2 + ((cpu_scalar_fields g.cpu_stats).map lines_printed).sum := by
  have h0 : lines_printed "".toList = 0 := by decide
  have h1 : lines_printed "Context Switches: ".toList = 0 := by decide
  have h2 : lines_printed "Boot Time: ".toList = 0 := by decide
  have h3 : lines_printed "Total processes Created: ".toList = 0 := by decide
  have h4 : lines_printed "Processes Running: ".toList = 0 := by decide
  have h5 : lines_printed "Processes Blocked: ".toList = 0 := by decide
  have h6 : lines_printed "\n\n".toList = 2 := by decide
  simp only [display_cpu_proc_scalars, lines_printed_append, lines_printed_printf1, h0, h1, h2,
    h3, h4, h5, h6, cpu_scalar_fields, List.map_cons, List.map_nil, List.sum_cons, List.sum_nil]
  omega

theorem display_cpu_proc_loop_lines (cpu : List cpu_line) :
    ∀ (count i : Nat) (out : string_t), i + count ≤ cpu.length →
      ∃ res, display_cpu_proc_loop cpu count i out = .ok res
        ∧ lines_printed res
            = lines_printed out
              + ((((cpu.drop i).take count).map
                  (fun r => ((cpu_line_fields r).map lines_printed).sum)).sum) := by
  intro count
  induction count with
  | zero =>
    intro i out _
    exact ⟨out, rfl, by simp⟩
  | succ count ih =>
    intro i out hlen
    have hi : i < cpu.length := by omega
    have hget : cpu.get? i = some (cpu.get ⟨i, hi⟩) := List.get?_eq_get hi
    obtain ⟨res, e1, e2⟩ := ih (i + 1) (out ++ display_cpu_proc_row (cpu.get ⟨i, hi⟩))
      (by omega)
    refine ⟨res, ?_, ?_⟩
    · rw [display_cpu_proc_loop, hget]
      exact e1
    · have hdrop : cpu.drop i = cpu.get ⟨i, hi⟩ :: cpu.drop (i + 1) := by
        rw [List.get_eq_getElem]
        exact List.drop_eq_getElem_cons hi
      rw [e2, lines_printed_append, display_cpu_proc_row_lines, hdrop, List.take_succ_cons,
        List.map_cons, List.sum_cons]
      omega

/-- The line feeds `display_cpu_proc` prints for a 17-row table: one after the
header, two at the end, and those held inside the stored fields. -/
theorem display_cpu_proc_lines (g : globals) (hrows : g.cpu_stats.cpu.length = NUM_CPU_LINES) :
    ∃ frame, display_cpu_proc g = .ok frame
      ∧ lines_printed frame = 3 + cpu_stats_line_feeds g.cpu_stats := by
  obtain ⟨res, e1, e2⟩ := display_cpu_proc_loop_lines g.cpu_stats.cpu NUM_CPU_LINES 0
    display_cpu_proc_header (by omega)
  have hh : lines_printed display_cpu_proc_header = 1 := by decide
  refine ⟨res ++ display_cpu_proc_scalars g, ?_, ?_⟩
  · unfold display_cpu_proc
    rw [e1]
  · rw [lines_printed_append, e2, hh, display_cpu_proc_scalars_lines, List.drop_zero,
      ← hrows, List.take_length]
    unfold cpu_stats_line_feeds
    omega

set_option maxRecDepth 100000 in
/-- Claim C13 is not met by the code. On the stat text of a two-core machine,
sampled into buffers that hold the empty string, `cpu_status()` prints a frame
of 11 lines (one header line, one per sampled row, one per scalar, two at the
end; the twelve rows that no line of the source names print no line feed),
and `cpu_status_loop` then moves the cursor up 25 times. -/
theorem cpu_rewind_differs_from_frame :
    ∃ frame g1, cpu_status_loop_cycle two_core_stat blank_globals = .ok (frame, 25, g1)
      ∧ lines_printed frame = 11
      ∧ lines_printed frame ≠ 25
      ∧ cpu_stats_line_feeds g1.cpu_stats = 8 := by
  refine ⟨_, _, rfl, ?_, ?_, ?_⟩ <;> decide

/-! ## Claim C12 -/

set_option maxRecDepth 100000 in
theorem cpu_allocate_twice_leak :
    cpu_allocate_twice_release_once empty_heap
        = .ok { next := 384, live := (alloc_cpu_struct cpu_stats_null empty_heap).2.live }
      ∧ (alloc_cpu_struct cpu_stats_null empty_heap).2.live.length = 192 := by
  refine ⟨by decide, by decide⟩

set_option maxRecDepth 100000 in
theorem mem_allocate_twice_leak :
    mem_allocate_twice_release_once empty_heap
        = .ok { next := 22, live := (alloc_mem_info_struct mem_info_null empty_heap).2.live }
      ∧ (alloc_mem_info_struct mem_info_null empty_heap).2.live.length = 11 := by
  refine ⟨by decide, by decide⟩

set_option maxRecDepth 100000 in
theorem network_allocate_twice_leak :
    network_allocate_twice_release_once empty_heap
        = .ok { next := 256,
                live := (alloc_network_info_struct network_info_null empty_heap).2.live }
      ∧ (alloc_network_info_struct network_info_null empty_heap).2.live.length = 128 := by
  refine ⟨by decide, by decide⟩

set_option maxRecDepth 100000 in
theorem allocate_once_release_once_balanced :
    free_cpu_struct (alloc_cpu_struct cpu_stats_null empty_heap).1
        (alloc_cpu_struct cpu_stats_null empty_heap).2 = .ok { next := 192, live := [] }
      ∧ free_mem_info_struct (alloc_mem_info_struct mem_info_null empty_heap).1
          (alloc_mem_info_struct mem_info_null empty_heap).2 = .ok { next := 11, live := [] }
      ∧ free_network_info_struct (alloc_network_info_struct network_info_null empty_heap).1
          (alloc_network_info_struct network_info_null empty_heap).2
            = .ok { next := 128, live := [] } := by
  refine ⟨by decide, by decide, by decide⟩

/-- Claim C12 is not met by the code. From an empty heap and all-NULL pointers,
allocate, allocate, release leaves reserved exactly the blocks of the first
allocate call: 192 blocks for the CPU store, 11 for the memory store, 128 for
the network store. The second call overwrites every pointer without releasing
the block it held. No `free` is refused (there is no double free), and one
allocate followed by one release leaves nothing reserved. -/
theorem allocate_twice_release_once_leaks :
    (cpu_allocate_twice_release_once empty_heap
        = .ok { next := 384, live := (alloc_cpu_struct cpu_stats_null empty_heap).2.live }
      ∧ (alloc_cpu_struct cpu_stats_null empty_heap).2.live.length = 192)
    ∧ (mem_allocate_twice_release_once empty_heap
        = .ok { next := 22, live := (alloc_mem_info_struct mem_info_null empty_heap).2.live }
      ∧ (alloc_mem_info_struct mem_info_null empty_heap).2.live.length = 11)
    ∧ (network_allocate_twice_release_once empty_heap
        = .ok { next := 256,
                live := (alloc_network_info_struct network_info_null empty_heap).2.live }
      ∧ (alloc_network_info_struct network_info_null empty_heap).2.live.length = 128)
    ∧ (free_cpu_struct (alloc_cpu_struct cpu_stats_null empty_heap).1
        (alloc_cpu_struct cpu_stats_null empty_heap).2 = .ok { next := 192, live := [] }
      ∧ free_mem_info_struct (alloc_mem_info_struct mem_info_null empty_heap).1
          (alloc_mem_info_struct mem_info_null empty_heap).2 = .ok { next := 11, live := [] }
      ∧ free_network_info_struct (alloc_network_info_struct network_info_null empty_heap).1
          (alloc_network_info_struct network_info_null empty_heap).2
            = .ok { next := 128, live := [] }) :=
  ⟨cpu_allocate_twice_leak, mem_allocate_twice_leak, network_allocate_twice_leak,
    allocate_once_release_once_balanced⟩

end SysMonitor
